import Mathlib

/-!
# Keyboard-matrix diagnostic core: embedding and verification

A shallow embedding of `qmk_diagnostic_firmware/lib/diag_mode.c`, `diag_mode.h` and
`timer_us.c`, and of the raw HID handler of `teleport_native_iso_keymap.c`.

Conventions of the embedding.

* Machine integers are natural numbers.  A value of C type `uint8_t` is a `Nat` below
  `256`, a `uint32_t` is a `Nat` below `2 ^ 32`; where the C arithmetic can wrap the
  reduction `% 2 ^ 32` is written out.
* The fixed-size per-key arrays of `diag_state_t` are functions on `Fin KEY_COUNT_DIAG`.
  Every indexed access goes through `arr_read` / `arr_write`, which fail (`none`) when
  the index is outside the array.  Reads through a pointer argument (`data`, `bitmap`)
  are checked in the same way against the buffer of the caller, and a division by zero
  fails as well.  Hence `f ... = some w` says that the C function ran without
  undefined behaviour and finished in `w`.
* The process-wide `diag_state`, the EEPROM, the frames handed to `raw_hid_send` and
  the cycle-counter registers are the fields of `World`, passed explicitly.
* A counted loop is run on the part of the world that it writes (an array, a pair of
  arrays, the EEPROM); what it only reads is an argument of its body.
* `EECONFIG_SIZE` comes from a header outside the sources; it is a parameter.
-/

namespace Diag

/-! ## Constants of `diag_mode.h` -/

def DIAG_CMD_EDGE : Nat := 0x50
def DIAG_CMD_SCAN_SUMMARY : Nat := 0x51
def DIAG_CMD_METRICS_DUMP : Nat := 0x52
def DIAG_CMD_ENABLE : Nat := 0x5A
def DIAG_CMD_RESET : Nat := 0x5B
def DIAG_CMD_SET_DEBOUNCE : Nat := 0x5C
def DIAG_CMD_SET_EAGER : Nat := 0x5D
def DIAG_CMD_SAVE_EEPROM : Nat := 0x4A
def DIAG_CMD_LOAD_EEPROM : Nat := 0x4B
def DIAG_CMD_SET_SCANMASK : Nat := 0x5E

def MATRIX_ROWS_DIAG : Nat := 6
def MATRIX_COLS_DIAG : Nat := 15
abbrev KEY_COUNT_DIAG : Nat := 85
def BITMAP_STRIDE : Nat := (MATRIX_COLS_DIAG + 7) / 8

/-- The C struct `diag_state_t`. -/
structure diag_state_t where
  enabled : Bool
  scan_div : Nat
  scan_counter : Nat
  ghost_events : Nat
  actuations : Fin KEY_COUNT_DIAG → Nat
  chatter : Fin KEY_COUNT_DIAG → Nat
  debounce_ms : Fin KEY_COUNT_DIAG → Nat
  eager_mode : Fin KEY_COUNT_DIAG → Bool
  stuck_rows : Nat
  stuck_cols : Nat

/-- Everything the code reads or writes: the static `diag_state`, the byte-addressed
EEPROM, the buffers handed to `raw_hid_send` (oldest first), and the debug / cycle
counter registers used by `timer_us.c` together with its static `cyccnt_offset`. -/
structure World where
  diag_state : diag_state_t
  eeprom : Nat → Nat
  sent : List (List Nat)
  DEMCR : Nat
  CTRL : Nat
  CYCCNT : Nat
  cyccnt_offset : Nat

/-! ## Checked memory accesses and the counted loop -/

/-- Read `a[i]`; `none` when `i` is outside the array. -/
def arr_read {α : Type} {n : Nat} (a : Fin n → α) (i : Nat) : Option α :=
  if h : i < n then some (a ⟨i, h⟩) else none

/-- Write `a[i] = v`; `none` when `i` is outside the array. -/
def arr_write {α : Type} {n : Nat} (a : Fin n → α) (i : Nat) (v : α) : Option (Fin n → α) :=
  if i < n then some (fun j => if j.val = i then v else a j) else none

/-- Read `p[i]` through a pointer to a caller buffer `p`; `none` past its end. -/
def ptr_read (p : List Nat) (i : Nat) : Option Nat := p.get? i

/-- The loop `for (i = start; i < bound; i++) body`, given as the number `k` of
iterations still to run (`bound - i`) and the current index `i`. -/
def for_loop {σ : Type} (body : Nat → σ → Option σ) : Nat → Nat → σ → Option σ
  | 0, _, s => some s
  | k + 1, i, s => (body i s).bind (for_loop body k (i + 1))

/-- The library call `eeprom_read_byte(addr)`. -/
def eeprom_read_byte (e : Nat → Nat) (addr : Nat) : Nat := e addr

/-- The library call `eeprom_update_byte(addr, val)`: afterwards the cell holds `val`. -/
def eeprom_update_byte (e : Nat → Nat) (addr : Nat) (val : Nat) : Nat → Nat :=
  fun a => if a = addr then val else e a

/-- The transport call `raw_hid_send(buf, length)`: the first `length` bytes of `buf`
are handed over as one unit. -/
def raw_hid_send (buf : List Nat) (length : Nat) (w : World) : World :=
  { w with sent := w.sent ++ [buf.take length] }

/-- The library call `memcpy(&dst[off], src, n)`; `none` when it would read past the
end of `src` or write past the end of `dst`. -/
def memcpy (dst : List Nat) (off : Nat) (src : List Nat) (n : Nat) : Option (List Nat) :=
  if n ≤ src.length ∧ off + n ≤ dst.length then
    some (dst.take off ++ src.take n ++ dst.drop (off + n))
  else none

/-! ## `timer_us.c` -/

def F_CPU : Nat := 168000000
def UINT32_MAX : Nat := 4294967295
/-- CMSIS bit mask `CoreDebug_DEMCR_TRCENA_Msk` (bit 24). -/
def CoreDebug_DEMCR_TRCENA_Msk : Nat := 2 ^ 24
/-- CMSIS bit mask `DWT_CTRL_CYCCNTENA_Msk` (bit 0). -/
def DWT_CTRL_CYCCNTENA_Msk : Nat := 1

def timer_us_init (w : World) : World :=
  { w with
    DEMCR := w.DEMCR ||| CoreDebug_DEMCR_TRCENA_Msk
    CTRL := w.CTRL ||| DWT_CTRL_CYCCNTENA_Msk
    CYCCNT := 0
    cyccnt_offset := 0 }

def timer_read_us (w : World) : Nat :=
  let cycles := (w.CYCCNT + w.cyccnt_offset) % 2 ^ 32
  (cycles * 1000000 % 2 ^ 64 / F_CPU) % 2 ^ 32

def timer_elapsed_us (last : Nat) (w : World) : Nat :=
  let now := timer_read_us w
  if now ≥ last then (now - last) % 2 ^ 32
  else (((UINT32_MAX - last) % 2 ^ 32 + now) % 2 ^ 32 + 1) % 2 ^ 32

/-! ## `diag_mode.c` -/

/-- The state after `memset(&diag_state, 0, sizeof(diag_state))`. -/
def diag_state_zero : diag_state_t :=
  { enabled := false, scan_div := 0, scan_counter := 0, ghost_events := 0,
    actuations := fun _ => 0, chatter := fun _ => 0, debounce_ms := fun _ => 0,
    eager_mode := fun _ => false, stuck_rows := 0, stuck_cols := 0 }

/-- The state part of the result of `diag_init`. -/
def diag_state_init : diag_state_t :=
  { enabled := false, scan_div := 1, scan_counter := 0, ghost_events := 0,
    actuations := fun _ => 0, chatter := fun _ => 0, debounce_ms := fun _ => 5,
    eager_mode := fun _ => false, stuck_rows := 0, stuck_cols := 0 }

/-- Body of the loop of `diag_init`.  The loop writes the two configuration arrays only,
so it is run on the pair `(debounce_ms, eager_mode)`. -/
def diag_init_body (i : Nat) (p : (Fin KEY_COUNT_DIAG → Nat) × (Fin KEY_COUNT_DIAG → Bool)) :
    Option ((Fin KEY_COUNT_DIAG → Nat) × (Fin KEY_COUNT_DIAG → Bool)) :=
  match p with
  | (debounce_ms, eager_mode) => do
    let d ← arr_write debounce_ms i 5
    let e ← arr_write eager_mode i false
    pure (d, e)

def diag_init (w : World) : Option World := do
  let s0 := diag_state_zero
  let p ← for_loop diag_init_body KEY_COUNT_DIAG 0 (s0.debounce_ms, s0.eager_mode)
  let s1 : diag_state_t := { s0 with debounce_ms := p.1, eager_mode := p.2 }
  let s2 : diag_state_t := { s1 with enabled := false, scan_div := 1, scan_counter := 0 }
  pure (timer_us_init { w with diag_state := s2 })

/-- The four bytes `(x >> 0) & 0xFF`, ..., `(x >> 24) & 0xFF` stored at `off .. off+3`
of a frame buffer. -/
def put_le32 (buf : List Nat) (off : Nat) (x : Nat) : List Nat :=
  (((buf.set off ((x >>> 0) &&& 0xFF)).set (off + 1) ((x >>> 8) &&& 0xFF)).set
    (off + 2) ((x >>> 16) &&& 0xFF)).set (off + 3) ((x >>> 24) &&& 0xFF)

/-- The frame buffer that `diag_send_edge_event` fills in before sending it. -/
def edge_event_buf (key phase kind timestamp_us scan_id : Nat) : List Nat :=
  let buf := List.replicate 32 0
  let buf := buf.set 0 DIAG_CMD_EDGE
  let buf := buf.set 1 key
  let buf := buf.set 2 phase
  let buf := buf.set 3 kind
  let buf := put_le32 buf 4 timestamp_us
  put_le32 buf 8 scan_id

def diag_send_edge_event (key phase kind timestamp_us scan_id : Nat) (w : World) : World :=
  raw_hid_send (edge_event_buf key phase kind timestamp_us scan_id) 32 w

/-- The frame buffer that `diag_send_scan_summary` fills in before sending it. -/
def scan_summary_buf (bitmap : List Nat) (timestamp_us scan_id : Nat) : Option (List Nat) :=
  let buf := List.replicate 32 0
  let buf := buf.set 0 DIAG_CMD_SCAN_SUMMARY
  let buf := buf.set 1 MATRIX_ROWS_DIAG
  let buf := buf.set 2 MATRIX_COLS_DIAG
  let buf := buf.set 3 BITMAP_STRIDE
  let buf := put_le32 buf 4 timestamp_us
  let buf := put_le32 buf 8 scan_id
  let bitmap_size := (MATRIX_ROWS_DIAG * BITMAP_STRIDE) % 256
  let bitmap_size := if bitmap_size > 20 then 20 else bitmap_size
  memcpy buf 12 bitmap bitmap_size

def diag_send_scan_summary (bitmap : List Nat) (timestamp_us scan_id : Nat) (w : World) :
    Option World := do
  let buf ← scan_summary_buf bitmap timestamp_us scan_id
  pure (raw_hid_send buf 32 w)

def diag_send_metrics_dump (w : World) : World := w

def diag_get_debounce (key : Nat) (w : World) : Option Nat :=
  if key ≥ KEY_COUNT_DIAG then some 5
  else arr_read w.diag_state.debounce_ms key

def diag_is_eager (key : Nat) (w : World) : Option Bool :=
  if key ≥ KEY_COUNT_DIAG then some false
  else arr_read w.diag_state.eager_mode key

/-- Body of the first loop of `diag_save_to_eeprom`.  The loop reads `diag_state` and
writes the EEPROM only, so it is run on the EEPROM. -/
def save_debounce_body (EECONFIG_SIZE : Nat) (s : diag_state_t) (i : Nat) (e : Nat → Nat) :
    Option (Nat → Nat) := do
  let v ← arr_read s.debounce_ms i
  pure (eeprom_update_byte e (EECONFIG_SIZE + i) v)

/-- Body of the second loop of `diag_save_to_eeprom`. -/
def save_eager_body (EECONFIG_SIZE : Nat) (s : diag_state_t) (i : Nat) (e : Nat → Nat) :
    Option (Nat → Nat) := do
  let b ← arr_read s.eager_mode i
  pure (eeprom_update_byte e (EECONFIG_SIZE + KEY_COUNT_DIAG + i) (if b then 1 else 0))

/-- The C function also takes the address of `debounce_ms[0]` into a local variable that
it never uses; the embedding leaves it out. -/
def diag_save_to_eeprom (EECONFIG_SIZE : Nat) (w : World) : Option World := do
  let e1 ← for_loop (save_debounce_body EECONFIG_SIZE w.diag_state) KEY_COUNT_DIAG 0 w.eeprom
  let e2 ← for_loop (save_eager_body EECONFIG_SIZE w.diag_state) KEY_COUNT_DIAG 0 e1
  pure { w with eeprom := e2 }

/-- Body of the first loop of `diag_load_from_eeprom`.  The loop reads the EEPROM and
writes `debounce_ms` only, so it is run on that array. -/
def load_debounce_body (EECONFIG_SIZE : Nat) (eeprom : Nat → Nat) (i : Nat)
    (debounce_ms : Fin KEY_COUNT_DIAG → Nat) : Option (Fin KEY_COUNT_DIAG → Nat) :=
  let val := eeprom_read_byte eeprom (EECONFIG_SIZE + i)
  let val := if val = 0xFF then 5 else val
  arr_write debounce_ms i val

/-- Body of the second loop of `diag_load_from_eeprom`, run on `eager_mode`. -/
def load_eager_body (EECONFIG_SIZE : Nat) (eeprom : Nat → Nat) (i : Nat)
    (eager_mode : Fin KEY_COUNT_DIAG → Bool) : Option (Fin KEY_COUNT_DIAG → Bool) :=
  let val := eeprom_read_byte eeprom (EECONFIG_SIZE + KEY_COUNT_DIAG + i)
  arr_write eager_mode i (val != 0 && val != 0xFF)

def diag_load_from_eeprom (EECONFIG_SIZE : Nat) (w : World) : Option World := do
  let d ← for_loop (load_debounce_body EECONFIG_SIZE w.eeprom) KEY_COUNT_DIAG 0
    w.diag_state.debounce_ms
  let e ← for_loop (load_eager_body EECONFIG_SIZE w.eeprom) KEY_COUNT_DIAG 0
    w.diag_state.eager_mode
  pure { w with diag_state := { w.diag_state with debounce_ms := d, eager_mode := e } }

def diag_process_command (EECONFIG_SIZE : Nat) (data : List Nat) (len : Nat) (w : World) :
    Option World :=
  if len < 1 then some w
  else do
    let cmd ← ptr_read data 0
    if cmd = DIAG_CMD_ENABLE then
      if len ≥ 3 then do
        let d1 ← ptr_read data 1
        let d2 ← ptr_read data 2
        pure { w with diag_state :=
          { w.diag_state with
            enabled := d1 != 0
            scan_div := if d2 > 0 then d2 else 1
            scan_counter := 0 } }
      else pure w
    else if cmd = DIAG_CMD_RESET then
      pure { w with diag_state :=
        { w.diag_state with
          scan_counter := 0
          ghost_events := 0
          actuations := fun _ => 0
          chatter := fun _ => 0
          stuck_rows := 0
          stuck_cols := 0 } }
    else if cmd = DIAG_CMD_SET_DEBOUNCE then
      if len ≥ 3 then do
        let key ← ptr_read data 1
        let ms ← ptr_read data 2
        if key < KEY_COUNT_DIAG then do
          let d ← arr_write w.diag_state.debounce_ms key ms
          pure { w with diag_state := { w.diag_state with debounce_ms := d } }
        else pure w
      else pure w
    else if cmd = DIAG_CMD_SET_EAGER then
      if len ≥ 3 then do
        let key ← ptr_read data 1
        let d2 ← ptr_read data 2
        let eager := d2 != 0
        if key < KEY_COUNT_DIAG then do
          let e ← arr_write w.diag_state.eager_mode key eager
          pure { w with diag_state := { w.diag_state with eager_mode := e } }
        else pure w
      else pure w
    else if cmd = DIAG_CMD_SAVE_EEPROM then diag_save_to_eeprom EECONFIG_SIZE w
    else if cmd = DIAG_CMD_LOAD_EEPROM then diag_load_from_eeprom EECONFIG_SIZE w
    else if cmd = DIAG_CMD_METRICS_DUMP then pure (diag_send_metrics_dump w)
    else pure w

def diag_on_pre_debounce_edge (key : Nat) (pressed : Bool) (timestamp_us scan_id : Nat)
    (w : World) : Option World :=
  if !w.diag_state.enabled then some w
  else if key ≥ KEY_COUNT_DIAG then some w
  else some (diag_send_edge_event key 1 (if pressed then 1 else 0) timestamp_us scan_id w)

def diag_on_post_debounce_edge (key : Nat) (pressed : Bool) (timestamp_us scan_id : Nat)
    (w : World) : Option World :=
  if !w.diag_state.enabled then some w
  else if key ≥ KEY_COUNT_DIAG then some w
  else do
    let w1 ←
      if pressed then do
        let old ← arr_read w.diag_state.actuations key
        let a ← arr_write w.diag_state.actuations key ((old + 1) % 2 ^ 32)
        pure { w with diag_state := { w.diag_state with actuations := a } }
      else pure w
    pure (diag_send_edge_event key 2 (if pressed then 1 else 0) timestamp_us scan_id w1)

def diag_on_scan_complete (matrix_bitmap : List Nat) (timestamp_us scan_id : Nat)
    (w : World) : Option World :=
  if !w.diag_state.enabled then some w
  else
    let w1 : World :=
      { w with diag_state :=
          { w.diag_state with scan_counter := (w.diag_state.scan_counter + 1) % 2 ^ 32 } }
    if w1.diag_state.scan_div = 0 then none
    else if w1.diag_state.scan_counter % w1.diag_state.scan_div = 0 then
      diag_send_scan_summary matrix_bitmap timestamp_us scan_id w1
    else some w1

/-! ## Scenarios and sample data used in the statements -/

/-- A sample world: zeroed RAM, an erased EEPROM (every cell reads `0xFF`), nothing sent. -/
def world_blank : World :=
  { diag_state := diag_state_zero, eeprom := fun _ => 0xFF, sent := [], DEMCR := 0, CTRL := 0,
    CYCCNT := 0, cyccnt_offset := 0 }

/-- A sample world with telemetry enabled, `scan_div = 4`, and an EEPROM whose cell `a`
holds `a % 256`. -/
def world_enabled : World :=
  { diag_state := { diag_state_init with enabled := true, scan_div := 4 },
    eeprom := fun a => a % 256, sent := [], DEMCR := 0, CTRL := 0, CYCCNT := 0,
    cyccnt_offset := 0 }

/-- The command sequence SET_DEBOUNCE(key, ms), SAVE_EEPROM, power cycle, LOAD_EEPROM,
followed by `diag_get_debounce(key)`.  The power cycle keeps the EEPROM, replaces the RAM
copy of `diag_state` by the arbitrary content `ram`, and runs `diag_init`. -/
def debounce_roundtrip (EECONFIG_SIZE key ms : Nat) (ram : diag_state_t) (w : World) :
    Option Nat := do
  let w1 ← diag_process_command EECONFIG_SIZE [DIAG_CMD_SET_DEBOUNCE, key, ms] 3 w
  let w2 ← diag_process_command EECONFIG_SIZE [DIAG_CMD_SAVE_EEPROM] 1 w1
  let w3 ← diag_init { w2 with diag_state := ram }
  let w4 ← diag_process_command EECONFIG_SIZE [DIAG_CMD_LOAD_EEPROM] 1 w3
  diag_get_debounce key w4

/-- The command sequence SET_EAGER(key, b), SAVE_EEPROM, power cycle, LOAD_EEPROM,
followed by `diag_is_eager(key)`; the power cycle is as in `debounce_roundtrip`. -/
def eager_roundtrip (EECONFIG_SIZE key b : Nat) (ram : diag_state_t) (w : World) :
    Option Bool := do
  let w1 ← diag_process_command EECONFIG_SIZE [DIAG_CMD_SET_EAGER, key, b] 3 w
  let w2 ← diag_process_command EECONFIG_SIZE [DIAG_CMD_SAVE_EEPROM] 1 w1
  let w3 ← diag_init { w2 with diag_state := ram }
  let w4 ← diag_process_command EECONFIG_SIZE [DIAG_CMD_LOAD_EEPROM] 1 w3
  diag_is_eager key w4


/-- The little-endian reading of the four bytes at `off .. off+3` of a buffer: the
decoder a host applies to the timestamp and scan-id fields of a frame. -/
def le32_decode (buf : List Nat) (off : Nat) : Nat :=
  buf.getD off 0 + 2 ^ 8 * buf.getD (off + 1) 0 + 2 ^ 16 * buf.getD (off + 2) 0
    + 2 ^ 24 * buf.getD (off + 3) 0

/-- A run of calls to `diag_on_scan_complete`, one per entry `(bitmap, timestamp_us,
scan_id)` of the list, in order. -/
def scan_calls : List (List Nat × Nat × Nat) → World → Option World
  | [], w => some w
  | c :: cs, w => (diag_on_scan_complete c.1 c.2.1 c.2.2 w).bind (scan_calls cs)

/-- The computation of `timer_elapsed_us` once the reading `now` of `timer_read_us` has
been taken: the two branches of the C function, each 32-bit operation reduced. -/
def timer_elapsed_us_at (now last : Nat) : Nat :=
  if now ≥ last then (now - last) % 2 ^ 32
  else (((UINT32_MAX - last) % 2 ^ 32 + now) % 2 ^ 32 + 1) % 2 ^ 32

/-- A world whose cycle counter reads `cycles`, everything else as in `world_blank`. -/
def world_at_cycle (cycles : Nat) : World :=
  { world_blank with CYCCNT := cycles }

/-- One call into the diagnostic core from the surrounding firmware. -/
inductive DiagCall where
  | process_command (data : List Nat) (len : Nat)
  | on_pre_debounce_edge (key : Nat) (pressed : Bool) (timestamp_us scan_id : Nat)
  | on_post_debounce_edge (key : Nat) (pressed : Bool) (timestamp_us scan_id : Nat)
  | on_scan_complete (matrix_bitmap : List Nat) (timestamp_us scan_id : Nat)
  | save_to_eeprom
  | load_from_eeprom

/-- The effect of one call. -/
def run_call (EECONFIG_SIZE : Nat) : DiagCall → World → Option World
  | DiagCall.process_command data len, w => diag_process_command EECONFIG_SIZE data len w
  | DiagCall.on_pre_debounce_edge key pressed timestamp_us scan_id, w =>
      diag_on_pre_debounce_edge key pressed timestamp_us scan_id w
  | DiagCall.on_post_debounce_edge key pressed timestamp_us scan_id, w =>
      diag_on_post_debounce_edge key pressed timestamp_us scan_id w
  | DiagCall.on_scan_complete matrix_bitmap timestamp_us scan_id, w =>
      diag_on_scan_complete matrix_bitmap timestamp_us scan_id w
  | DiagCall.save_to_eeprom, w => diag_save_to_eeprom EECONFIG_SIZE w
  | DiagCall.load_from_eeprom, w => diag_load_from_eeprom EECONFIG_SIZE w

/-- The effect of a sequence of calls, in order. -/
def run_calls (EECONFIG_SIZE : Nat) : List DiagCall → World → Option World
  | [], w => some w
  | c :: cs, w => (run_call EECONFIG_SIZE c w).bind (run_calls EECONFIG_SIZE cs)

/-- What the C types and pointers of a call promise: a command buffer holds at least
`len` bytes, each below 256, and a scan bitmap holds the
`MATRIX_ROWS_DIAG * BITMAP_STRIDE = 12` bytes of the matrix. -/
def call_valid : DiagCall → Bool
  | DiagCall.process_command data len =>
      decide (len ≤ data.length) && data.all (fun b => decide (b < 256))
  | DiagCall.on_scan_complete matrix_bitmap _ _ => decide (12 ≤ matrix_bitmap.length)
  | _ => true

/-- A sample run: ENABLE with divisor byte 0, one scan, ENABLE with divisor 200, a
two-byte ENABLE frame, an unknown code, a press, a save and a load. -/
def sample_calls : List DiagCall :=
  [DiagCall.process_command [DIAG_CMD_ENABLE, 1, 0] 3,
   DiagCall.on_scan_complete (List.replicate 12 0) 10 1,
   DiagCall.process_command [DIAG_CMD_ENABLE, 1, 200, 0] 4,
   DiagCall.process_command [DIAG_CMD_ENABLE, 0] 2,
   DiagCall.process_command [DIAG_CMD_SET_SCANMASK, 0, 0] 3,
   DiagCall.on_post_debounce_edge 3 true 20 1,
   DiagCall.save_to_eeprom,
   DiagCall.load_from_eeprom]

/-! ## `teleport_native_iso_keymap.c`: the raw HID handler

`RGB_MATRIX_LED_COUNT` comes from the keyboard configuration, outside the sources; it is a
parameter.  The RGB matrix library is outside the sources as well: the values its getters
return are fields of the state, and the calls made to its setters are recorded in order.
In one run of `raw_hid_receive` every getter is called before any setter. -/

/-- A call from `raw_hid_receive` into the RGB matrix library. -/
inductive RgbCall where
  | rgb_matrix_mode (mode : Nat)
  | rgb_matrix_sethsv (h s v : Nat)
  | rgb_matrix_set_speed (speed : Nat)
  | rgb_matrix_toggle

/-- What `raw_hid_receive` reads and writes: the globals `ledmap[85][3]` and
`use_per_key_colors`, the values returned by the `rgb_matrix_get_*` and
`rgb_matrix_is_enabled` getters, the library calls made, and the buffers handed to
`raw_hid_send`. -/
structure KeymapWorld where
  ledmap : Fin 85 → Fin 3 → Nat
  use_per_key_colors : Bool
  rgb_mode : Nat
  rgb_hue : Nat
  rgb_sat : Nat
  rgb_val : Nat
  rgb_speed : Nat
  rgb_enabled : Bool
  rgb_calls : List RgbCall
  sent : List (List Nat)

/-- Write `ledmap[row][col] = v`; `none` when an index is outside the array. -/
def ledmap_write (m : Fin 85 → Fin 3 → Nat) (row col v : Nat) : Option (Fin 85 → Fin 3 → Nat) :=
  if row < 85 ∧ col < 3 then
    some (fun i j => if i.val = row ∧ j.val = col then v else m i j)
  else none

/-- Read `ledmap[row][col]`; `none` when an index is outside the array. -/
def ledmap_read (m : Fin 85 → Fin 3 → Nat) (row col : Nat) : Option Nat :=
  if h : row < 85 ∧ col < 3 then some (m ⟨row, h.1⟩ ⟨col, h.2⟩) else none

/-- Write `buf[i] = v` in a local buffer; `none` when `i` is outside it. -/
def buf_write (buf : List Nat) (i v : Nat) : Option (List Nat) :=
  if i < buf.length then some (buf.set i v) else none

/-- Body of the loop of case `0x21` (bulk set key colors).  The loop reads the packet and
writes `ledmap` only, so it is run on `ledmap`. -/
def bulk_set_body (RGB_MATRIX_LED_COUNT : Nat) (data : List Nat) (i : Nat)
    (ledmap : Fin 85 → Fin 3 → Nat) : Option (Fin 85 → Fin 3 → Nat) := do
  let offset := (2 + i * 4) % 256
  let key_index ← ptr_read data offset
  let h ← ptr_read data (offset + 1)
  let s ← ptr_read data (offset + 2)
  let v ← ptr_read data (offset + 3)
  if key_index < RGB_MATRIX_LED_COUNT then do
    let m0 ← ledmap_write ledmap key_index 0 h
    let m1 ← ledmap_write m0 key_index 1 s
    ledmap_write m1 key_index 2 v
  else pure ledmap

/-- The loop of case `0x30` (get key colors):
`for (i = 0; i < count && (start_index + i) < RGB_MATRIX_LED_COUNT; i++)`, given as the
number `k` of iterations that `i < count` still allows and the current `i`; it is run on
the response buffer. -/
def get_colors_loop (RGB_MATRIX_LED_COUNT start_index : Nat) (ledmap : Fin 85 → Fin 3 → Nat) :
    Nat → Nat → List Nat → Option (List Nat)
  | 0, _, response => some response
  | k + 1, i, response =>
    if start_index + i < RGB_MATRIX_LED_COUNT then do
      let key_idx := (start_index + i) % 256
      let h ← ledmap_read ledmap key_idx 0
      let r0 ← buf_write response (3 + i * 3) h
      let s ← ledmap_read ledmap key_idx 1
      let r1 ← buf_write r0 (4 + i * 3) s
      let v ← ledmap_read ledmap key_idx 2
      let r2 ← buf_write r1 (5 + i * 3) v
      get_colors_loop RGB_MATRIX_LED_COUNT start_index ledmap k (i + 1) r2
    else some response

/-- The handler `raw_hid_receive(data, length)`.  The C function never looks at
`length`. -/
def raw_hid_receive (RGB_MATRIX_LED_COUNT : Nat) (data : List Nat) (_length : Nat)
    (k : KeymapWorld) : Option KeymapWorld := do
  let command ← ptr_read data 0
  let response := List.replicate 32 0
  if command = 0x01 then do
    let d1 ← ptr_read data 1
    if d1 = 0 then pure { k with use_per_key_colors := true }
    else
      pure { k with
        use_per_key_colors := false
        rgb_calls := k.rgb_calls ++ [RgbCall.rgb_matrix_mode d1] }
  else if command = 0x02 then do
    let d1 ← ptr_read data 1
    let d2 ← ptr_read data 2
    let d3 ← ptr_read data 3
    pure { k with rgb_calls := k.rgb_calls ++ [RgbCall.rgb_matrix_sethsv d1 d2 d3] }
  else if command = 0x03 then do
    let d1 ← ptr_read data 1
    pure { k with
      rgb_calls := k.rgb_calls ++ [RgbCall.rgb_matrix_sethsv k.rgb_hue k.rgb_sat d1] }
  else if command = 0x04 then do
    let d1 ← ptr_read data 1
    pure { k with rgb_calls := k.rgb_calls ++ [RgbCall.rgb_matrix_set_speed d1] }
  else if command = 0x05 then
    pure { k with rgb_calls := k.rgb_calls ++ [RgbCall.rgb_matrix_toggle] }
  else if command = 0x10 then
    let response := response.set 0 0x10
    let response := response.set 1 k.rgb_mode
    let response := response.set 2 k.rgb_hue
    let response := response.set 3 k.rgb_sat
    let response := response.set 4 k.rgb_val
    let response := response.set 5 k.rgb_speed
    let response := response.set 6 (if k.rgb_enabled then 1 else 0)
    pure { k with sent := k.sent ++ [response.take 32] }
  else if command = 0x20 then do
    let key_index ← ptr_read data 1
    let h ← ptr_read data 2
    let s ← ptr_read data 3
    let v ← ptr_read data 4
    if key_index < RGB_MATRIX_LED_COUNT then do
      let m0 ← ledmap_write k.ledmap key_index 0 h
      let m1 ← ledmap_write m0 key_index 1 s
      let m2 ← ledmap_write m1 key_index 2 v
      pure { k with ledmap := m2, use_per_key_colors := true }
    else pure k
  else if command = 0x21 then do
    let count ← ptr_read data 1
    let count := if count > 10 then 10 else count
    let m ← for_loop (bulk_set_body RGB_MATRIX_LED_COUNT data) count 0 k.ledmap
    pure { k with ledmap := m, use_per_key_colors := true }
  else if command = 0x30 then do
    let start_index ← ptr_read data 1
    let count ← ptr_read data 2
    if start_index < RGB_MATRIX_LED_COUNT then do
      let response := response.set 0 0x30
      let response := response.set 1 start_index
      let response := response.set 2 count
      let count := if count > 7 then 7 else count
      let r ← get_colors_loop RGB_MATRIX_LED_COUNT start_index k.ledmap count 0 response
      pure { k with sent := k.sent ++ [r.take 32] }
    else pure k
  else pure k

/-- A sample state of the keymap: every color 0, per-key colors on, nothing sent. -/
def keymap_sample : KeymapWorld :=
  { ledmap := fun _ _ => 0, use_per_key_colors := true, rgb_mode := 1, rgb_hue := 0,
    rgb_sat := 255, rgb_val := 128, rgb_speed := 64, rgb_enabled := true, rgb_calls := [],
    sent := [] }

/-- A 32-byte packet for case `0x21`: byte0 = 0x21, byte1 = `count`, then the thirty
bytes 2, 3, ..., 31. -/
def bulk_packet (count : Nat) : List Nat :=
  0x21 :: count :: (List.range 30).map (fun i => i + 2)

/-! ## The counted loop -/

/-- Invariant rule for `for_loop`: a property that holds at the start index and is
carried by every iteration below the bound holds at the bound, and the loop finishes. -/
theorem for_loop_inv {σ : Type} (body : Nat → σ → Option σ) (N : Nat) (P : Nat → σ → Prop)
    (hstep : ∀ i s, i < N → P i s → ∃ s', body i s = some s' ∧ P (i + 1) s') :
    ∀ k i s, i + k = N → P i s → ∃ s', for_loop body k i s = some s' ∧ P N s' := by
  intro k
  induction k with
  | zero =>
    intro i s hik hP
    have hi : i = N := by omega
    subst hi
    exact ⟨s, rfl, hP⟩
  | succ k ih =>
    intro i s hik hP
    obtain ⟨s1, hs1, hP1⟩ := hstep i s (by omega) hP
    obtain ⟨s2, hs2, hP2⟩ := ih (i + 1) s1 (by omega) hP1
    exact ⟨s2, by simp [for_loop, hs1, hs2], hP2⟩

/-- A loop whose body writes `f i` to cell `i` of an array fills the array with `f`. -/
theorem for_loop_fill {α : Type} (body : Nat → (Fin KEY_COUNT_DIAG → α) → Option (Fin KEY_COUNT_DIAG → α))
    (f : Nat → α) (hbody : ∀ i a, body i a = arr_write a i (f i)) (a : Fin KEY_COUNT_DIAG → α) :
    for_loop body KEY_COUNT_DIAG 0 a = some (fun j => f j.val) := by
  obtain ⟨s, hs, hP⟩ := for_loop_inv body KEY_COUNT_DIAG
    (fun i s => s = fun j => if j.val < i then f j.val else a j)
    (by
      intro i s hi hs
      subst hs
      refine ⟨_, by simp [hbody, arr_write, hi]; rfl, ?_⟩
      funext j
      by_cases h1 : j.val = i
      · simp [h1]
      · by_cases h2 : j.val < i
        · have : j.val < i + 1 := by omega
          simp [h1, h2, this]
        · have : ¬ j.val < i + 1 := by omega
          simp [h1, h2, this])
    KEY_COUNT_DIAG 0 a (by simp) (by simp)
  rw [hs, hP]
  simp

/-- What `diag_load_from_eeprom` computes: it always finishes, and replaces the two
configuration arrays by the decoded EEPROM region. -/
theorem diag_load_from_eeprom_eq (base : Nat) (w : World) :
    diag_load_from_eeprom base w =
      some { w with diag_state := { w.diag_state with
        debounce_ms := fun j =>
          if eeprom_read_byte w.eeprom (base + j.val) = 0xFF then 5
          else eeprom_read_byte w.eeprom (base + j.val)
        eager_mode := fun j =>
          (eeprom_read_byte w.eeprom (base + KEY_COUNT_DIAG + j.val) != 0
            && eeprom_read_byte w.eeprom (base + KEY_COUNT_DIAG + j.val) != 0xFF) } } := by
  have h1 := for_loop_fill (load_debounce_body base w.eeprom)
    (fun i => if eeprom_read_byte w.eeprom (base + i) = 0xFF then 5
      else eeprom_read_byte w.eeprom (base + i))
    (fun i a => rfl) w.diag_state.debounce_ms
  have h2 := for_loop_fill (load_eager_body base w.eeprom)
    (fun i => (eeprom_read_byte w.eeprom (base + KEY_COUNT_DIAG + i) != 0
      && eeprom_read_byte w.eeprom (base + KEY_COUNT_DIAG + i) != 0xFF))
    (fun i a => rfl) w.diag_state.eager_mode
  unfold diag_load_from_eeprom
  rw [h1, h2]
  rfl

/-- The loop of `diag_init` fills both configuration arrays with their defaults. -/
theorem diag_init_loop (p : (Fin KEY_COUNT_DIAG → Nat) × (Fin KEY_COUNT_DIAG → Bool)) :
    for_loop diag_init_body KEY_COUNT_DIAG 0 p = some (fun _ => 5, fun _ => false) := by
  obtain ⟨s, hs, hP⟩ := for_loop_inv diag_init_body KEY_COUNT_DIAG
    (fun i s => s = (fun j => if j.val < i then 5 else p.1 j,
                     fun j => if j.val < i then false else p.2 j))
    (by
      intro i s hi hs
      subst hs
      refine ⟨_, by simp [diag_init_body, arr_write, hi]; rfl, ?_⟩
      refine Prod.ext ?_ ?_ <;> funext j
      · by_cases h1 : j.val = i
        · simp [h1]
        · by_cases h2 : j.val < i
          · have : j.val < i + 1 := by omega
            simp [h1, h2, this]
          · have : ¬ j.val < i + 1 := by omega
            simp [h1, h2, this]
      · by_cases h1 : j.val = i
        · simp [h1]
        · by_cases h2 : j.val < i
          · have : j.val < i + 1 := by omega
            simp [h1, h2, this]
          · have : ¬ j.val < i + 1 := by omega
            simp [h1, h2, this])
    KEY_COUNT_DIAG 0 p (by simp) (by simp)
  rw [hs, hP]
  simp

/-- What `diag_init` computes: it always finishes, in the default state, with the
cycle counter restarted; the EEPROM and the frames already sent are kept. -/
theorem diag_init_eq (w : World) :
    diag_init w = some (timer_us_init { w with diag_state := diag_state_init }) := by
  simp only [diag_init, diag_init_loop]
  rfl

/-- The first loop of `diag_save_to_eeprom` stores every debounce value at its cell and
touches nothing outside the first `KEY_COUNT_DIAG` cells of the region. -/
theorem save_debounce_loop (base : Nat) (s : diag_state_t) (e0 : Nat → Nat) :
    ∃ e, for_loop (save_debounce_body base s) KEY_COUNT_DIAG 0 e0 = some e
      ∧ (∀ j : Fin KEY_COUNT_DIAG, e (base + j.val) = s.debounce_ms j)
      ∧ (∀ a, a < base ∨ base + KEY_COUNT_DIAG ≤ a → e a = e0 a) := by
  obtain ⟨e, he, h1, h2⟩ := for_loop_inv (save_debounce_body base s) KEY_COUNT_DIAG
    (fun i e => (∀ j : Fin KEY_COUNT_DIAG, j.val < i → e (base + j.val) = s.debounce_ms j)
      ∧ (∀ a, a < base ∨ base + i ≤ a → e a = e0 a))
    (by
      rintro i e hi ⟨h1, h2⟩
      refine ⟨_, by simp [save_debounce_body, arr_read, hi]; rfl, ?_, ?_⟩
      · intro j hj
        by_cases hji : j.val = i
        · have : j = ⟨i, hi⟩ := Fin.ext hji
          subst this
          simp [eeprom_update_byte]
        · have hne : base + j.val ≠ base + i := by omega
          simp only [eeprom_update_byte, hne, if_false]
          exact h1 j (by omega)
      · intro a ha
        have hne : a ≠ base + i := by omega
        simp only [eeprom_update_byte, hne, if_false]
        exact h2 a (by omega))
    KEY_COUNT_DIAG 0 e0 (by simp) ⟨by simp, by simp⟩
  exact ⟨e, he, fun j => h1 j j.isLt, h2⟩

/-- The second loop of `diag_save_to_eeprom` stores every eager flag as 1 or 0 at its
cell and touches nothing outside the second `KEY_COUNT_DIAG` cells of the region. -/
theorem save_eager_loop (base : Nat) (s : diag_state_t) (e0 : Nat → Nat) :
    ∃ e, for_loop (save_eager_body base s) KEY_COUNT_DIAG 0 e0 = some e
      ∧ (∀ j : Fin KEY_COUNT_DIAG, e (base + KEY_COUNT_DIAG + j.val) =
            if s.eager_mode j then 1 else 0)
      ∧ (∀ a, a < base + KEY_COUNT_DIAG ∨ base + 2 * KEY_COUNT_DIAG ≤ a → e a = e0 a) := by
  obtain ⟨e, he, h1, h2⟩ := for_loop_inv (save_eager_body base s) KEY_COUNT_DIAG
    (fun i e => (∀ j : Fin KEY_COUNT_DIAG, j.val < i → e (base + KEY_COUNT_DIAG + j.val) =
            if s.eager_mode j then 1 else 0)
      ∧ (∀ a, a < base + KEY_COUNT_DIAG ∨ base + KEY_COUNT_DIAG + i ≤ a → e a = e0 a))
    (by
      rintro i e hi ⟨h1, h2⟩
      refine ⟨_, by simp [save_eager_body, arr_read, hi]; rfl, ?_, ?_⟩
      · intro j hj
        by_cases hji : j.val = i
        · have : j = ⟨i, hi⟩ := Fin.ext hji
          subst this
          simp [eeprom_update_byte]
        · have hne : base + KEY_COUNT_DIAG + j.val ≠ base + KEY_COUNT_DIAG + i := by omega
          simp only [eeprom_update_byte, hne, if_false]
          exact h1 j (by omega)
      · intro a ha
        have hne : a ≠ base + KEY_COUNT_DIAG + i := by omega
        simp only [eeprom_update_byte, hne, if_false]
        exact h2 a (by omega))
    KEY_COUNT_DIAG 0 e0 (by simp) ⟨by simp, by simp⟩
  exact ⟨e, he, fun j => h1 j j.isLt, fun a ha => h2 a (by omega)⟩

/-- What `diag_save_to_eeprom` computes: it always finishes, changes only the EEPROM,
and there only the `2 * KEY_COUNT_DIAG` cells from `base` on, which then hold the
debounce values followed by the eager flags as 1 or 0. -/
theorem diag_save_to_eeprom_spec (base : Nat) (w : World) :
    ∃ e, diag_save_to_eeprom base w = some { w with eeprom := e }
      ∧ (∀ j : Fin KEY_COUNT_DIAG, e (base + j.val) = w.diag_state.debounce_ms j)
      ∧ (∀ j : Fin KEY_COUNT_DIAG, e (base + KEY_COUNT_DIAG + j.val) =
            if w.diag_state.eager_mode j then 1 else 0)
      ∧ (∀ a, a < base ∨ base + 2 * KEY_COUNT_DIAG ≤ a → e a = w.eeprom a) := by
  obtain ⟨e1, hl1, hd1, ho1⟩ := save_debounce_loop base w.diag_state w.eeprom
  obtain ⟨e2, hl2, hd2, ho2⟩ := save_eager_loop base w.diag_state e1
  refine ⟨e2, ?_, ?_, hd2, ?_⟩
  · unfold diag_save_to_eeprom
    rw [hl1]
    simp only [Option.bind_eq_bind, Option.some_bind]
    rw [hl2]
    rfl
  · intro j
    have hj := j.isLt
    rw [ho2 (base + j.val) (Or.inl (by omega))]
    exact hd1 j
  · intro a ha
    rw [ho2 a (by omega)]
    exact ho1 a (by omega)

/-! ## Single commands -/

/-- SET_DEBOUNCE with a key below 85 writes one cell of `debounce_ms`. -/
theorem process_set_debounce (base key ms : Nat) (w : World) (hkey : key < KEY_COUNT_DIAG) :
    diag_process_command base [DIAG_CMD_SET_DEBOUNCE, key, ms] 3 w =
      some { w with diag_state := { w.diag_state with
        debounce_ms := fun j => if j.val = key then ms else w.diag_state.debounce_ms j } } := by
  simp [diag_process_command, ptr_read, arr_write, hkey, DIAG_CMD_SET_DEBOUNCE, DIAG_CMD_ENABLE,
    DIAG_CMD_RESET]

/-- SET_EAGER with a key below 85 writes one cell of `eager_mode`. -/
theorem process_set_eager (base key b : Nat) (w : World) (hkey : key < KEY_COUNT_DIAG) :
    diag_process_command base [DIAG_CMD_SET_EAGER, key, b] 3 w =
      some { w with diag_state := { w.diag_state with
        eager_mode := fun j => if j.val = key then (b != 0) else w.diag_state.eager_mode j } } := by
  simp [diag_process_command, ptr_read, arr_write, hkey, DIAG_CMD_SET_DEBOUNCE, DIAG_CMD_ENABLE,
    DIAG_CMD_RESET, DIAG_CMD_SET_EAGER]

/-- SAVE_EEPROM runs `diag_save_to_eeprom`. -/
theorem process_save (base : Nat) (w : World) :
    diag_process_command base [DIAG_CMD_SAVE_EEPROM] 1 w = diag_save_to_eeprom base w := by
  simp [diag_process_command, ptr_read, DIAG_CMD_SET_DEBOUNCE, DIAG_CMD_ENABLE, DIAG_CMD_RESET,
    DIAG_CMD_SET_EAGER, DIAG_CMD_SAVE_EEPROM]

/-- LOAD_EEPROM runs `diag_load_from_eeprom`. -/
theorem process_load (base : Nat) (w : World) :
    diag_process_command base [DIAG_CMD_LOAD_EEPROM] 1 w = diag_load_from_eeprom base w := by
  simp [diag_process_command, ptr_read, DIAG_CMD_SET_DEBOUNCE, DIAG_CMD_ENABLE, DIAG_CMD_RESET,
    DIAG_CMD_SET_EAGER, DIAG_CMD_SAVE_EEPROM, DIAG_CMD_LOAD_EEPROM]

/-- ENABLE with three bytes sets the gate, the divisor and the counter. -/
theorem process_enable (base b1 d : Nat) (w : World) :
    diag_process_command base [DIAG_CMD_ENABLE, b1, d] 3 w =
      some { w with diag_state := { w.diag_state with
        enabled := b1 != 0
        scan_div := if d > 0 then d else 1
        scan_counter := 0 } } := by
  simp [diag_process_command, ptr_read, DIAG_CMD_ENABLE]

/-! ## Persistence round trips -/

/-- The value read back after SET_DEBOUNCE, SAVE_EEPROM, power cycle and LOAD_EEPROM. -/
theorem debounce_roundtrip_eq (base key ms : Nat) (ram : diag_state_t) (w : World)
    (hkey : key < KEY_COUNT_DIAG) :
    debounce_roundtrip base key ms ram w = some (if ms = 0xFF then 5 else ms) := by
  unfold debounce_roundtrip
  rw [process_set_debounce base key ms w hkey]
  simp only [Option.bind_eq_bind, Option.some_bind]
  rw [process_save]
  obtain ⟨e, hsave, hd, -, -⟩ := diag_save_to_eeprom_spec base
    { w with diag_state := { w.diag_state with
        debounce_ms := fun j => if j.val = key then ms else w.diag_state.debounce_ms j } }
  rw [hsave]
  simp only [Option.some_bind]
  rw [diag_init_eq]
  simp only [Option.some_bind]
  rw [process_load, diag_load_from_eeprom_eq]
  have hcell : e (base + key) = ms := by
    have := hd ⟨key, hkey⟩
    simpa using this
  simp [diag_get_debounce, arr_read, hkey, timer_us_init, eeprom_read_byte, hcell]

/-- The flag read back after SET_EAGER, SAVE_EEPROM, power cycle and LOAD_EEPROM. -/
theorem eager_roundtrip_eq (base key b : Nat) (ram : diag_state_t) (w : World)
    (hkey : key < KEY_COUNT_DIAG) :
    eager_roundtrip base key b ram w = some (b != 0) := by
  unfold eager_roundtrip
  rw [process_set_eager base key b w hkey]
  simp only [Option.bind_eq_bind, Option.some_bind]
  rw [process_save]
  obtain ⟨e, hsave, -, he, -⟩ := diag_save_to_eeprom_spec base
    { w with diag_state := { w.diag_state with
        eager_mode := fun j => if j.val = key then (b != 0) else w.diag_state.eager_mode j } }
  rw [hsave]
  simp only [Option.some_bind]
  rw [diag_init_eq]
  simp only [Option.some_bind]
  rw [process_load, diag_load_from_eeprom_eq]
  have hcell : e (base + KEY_COUNT_DIAG + key) = if (b != 0) = true then 1 else 0 := by
    have := he ⟨key, hkey⟩
    simpa using this
  have hle : ¬ KEY_COUNT_DIAG ≤ key := Nat.not_le.mpr hkey
  by_cases hb : b = 0
  · simp [diag_is_eager, arr_read, hkey, hle, timer_us_init, eeprom_read_byte, hcell, hb]
  · simp [diag_is_eager, arr_read, hkey, hle, timer_us_init, eeprom_read_byte, hcell, hb]

/-! ## Frames -/

/-- Masking with 0xFF keeps the low byte. -/
theorem and_byte (x : Nat) : x &&& 0xFF = x % 256 :=
  Nat.and_pow_two_sub_one_eq_mod x 8

/-- The buffer built by `diag_send_edge_event`, byte by byte. -/
theorem edge_event_buf_eq (key phase kind ts id : Nat) :
    edge_event_buf key phase kind ts id =
      [DIAG_CMD_EDGE, key, phase, kind,
        ts % 256, ts / 2 ^ 8 % 256, ts / 2 ^ 16 % 256, ts / 2 ^ 24 % 256,
        id % 256, id / 2 ^ 8 % 256, id / 2 ^ 16 % 256, id / 2 ^ 24 % 256]
      ++ List.replicate 20 0 := by
  simp [edge_event_buf, put_le32, List.replicate, and_byte, Nat.shiftRight_eq_div_pow]

/-- The buffer built by `diag_send_scan_summary` when the bitmap has at least
`MATRIX_ROWS_DIAG * BITMAP_STRIDE = 12` bytes. -/
theorem scan_summary_buf_eq (bitmap : List Nat) (ts id : Nat) (hlen : 12 ≤ bitmap.length) :
    scan_summary_buf bitmap ts id =
      some ([DIAG_CMD_SCAN_SUMMARY, MATRIX_ROWS_DIAG, MATRIX_COLS_DIAG, BITMAP_STRIDE,
        ts % 256, ts / 2 ^ 8 % 256, ts / 2 ^ 16 % 256, ts / 2 ^ 24 % 256,
        id % 256, id / 2 ^ 8 % 256, id / 2 ^ 16 % 256, id / 2 ^ 24 % 256]
      ++ bitmap.take 12 ++ List.replicate 8 0) := by
  simp [scan_summary_buf, memcpy, put_le32, List.replicate, and_byte,
    Nat.shiftRight_eq_div_pow, MATRIX_ROWS_DIAG, BITMAP_STRIDE, MATRIX_COLS_DIAG, hlen]

/-- Four little-endian bytes of a 32-bit value decode to the value. -/
theorem le32_bytes (x : Nat) (hx : x < 2 ^ 32) :
    x % 256 + 2 ^ 8 * (x / 2 ^ 8 % 256) + 2 ^ 16 * (x / 2 ^ 16 % 256)
      + 2 ^ 24 * (x / 2 ^ 24 % 256) = x := by
  omega


/-- A buffer of at least 12 bytes starts with 12 bytes. -/
theorem twelve_bytes (l : List Nat) (h : 12 ≤ l.length) :
    ∃ b0 b1 b2 b3 b4 b5 b6 b7 b8 b9 b10 b11 rest,
      l = b0 :: b1 :: b2 :: b3 :: b4 :: b5 :: b6 :: b7 :: b8 :: b9 :: b10 :: b11 :: rest := by
  rcases l with _ | ⟨b0, _ | ⟨b1, _ | ⟨b2, _ | ⟨b3, _ | ⟨b4, _ | ⟨b5, _ | ⟨b6, _ | ⟨b7,
    _ | ⟨b8, _ | ⟨b9, _ | ⟨b10, _ | ⟨b11, rest⟩⟩⟩⟩⟩⟩⟩⟩⟩⟩⟩⟩
  all_goals first
    | exact ⟨b0, b1, b2, b3, b4, b5, b6, b7, b8, b9, b10, b11, rest, rfl⟩
    | (exfalso; simp at h)

/-! ## Scan decimation -/

/-- One call of `diag_on_scan_complete` while enabled, with a divisor of at least 1 and
a bitmap of at least 12 bytes: the call finishes, advances `scan_counter`, and sends one
scan-summary frame exactly when the new counter is a multiple of `scan_div`. -/
theorem scan_complete_enabled (bm : List Nat) (ts id : Nat) (w : World)
    (hen : w.diag_state.enabled = true) (hd : 1 ≤ w.diag_state.scan_div)
    (hbm : 12 ≤ bm.length) :
    ∃ w', diag_on_scan_complete bm ts id w = some w'
      ∧ w'.diag_state = { w.diag_state with
          scan_counter := (w.diag_state.scan_counter + 1) % 2 ^ 32 }
      ∧ (((w.diag_state.scan_counter + 1) % 2 ^ 32) % w.diag_state.scan_div = 0 →
          ∃ frame, w'.sent = w.sent ++ [frame] ∧ frame.length = 32
            ∧ frame.get? 0 = some DIAG_CMD_SCAN_SUMMARY)
      ∧ (((w.diag_state.scan_counter + 1) % 2 ^ 32) % w.diag_state.scan_div ≠ 0 →
          w'.sent = w.sent) := by
  have hd0 : w.diag_state.scan_div ≠ 0 := by omega
  by_cases hm : ((w.diag_state.scan_counter + 1) % 2 ^ 32) % w.diag_state.scan_div = 0
  · refine ⟨raw_hid_send
        ([DIAG_CMD_SCAN_SUMMARY, MATRIX_ROWS_DIAG, MATRIX_COLS_DIAG, BITMAP_STRIDE,
          ts % 256, ts / 2 ^ 8 % 256, ts / 2 ^ 16 % 256, ts / 2 ^ 24 % 256,
          id % 256, id / 2 ^ 8 % 256, id / 2 ^ 16 % 256, id / 2 ^ 24 % 256]
          ++ bm.take 12 ++ List.replicate 8 0) 32
        { w with diag_state := { w.diag_state with
            scan_counter := (w.diag_state.scan_counter + 1) % 2 ^ 32 } }, ?_, rfl, ?_, ?_⟩
    · simp only [diag_on_scan_complete, hen, hd0, hm, diag_send_scan_summary,
        scan_summary_buf_eq bm ts id hbm]
      simp
    · intro _
      exact ⟨_, rfl, by simp [hbm], by simp⟩
    · intro h
      exact absurd hm h
  · refine ⟨{ w with diag_state := { w.diag_state with
        scan_counter := (w.diag_state.scan_counter + 1) % 2 ^ 32 } }, ?_, rfl, ?_, ?_⟩
    · simp only [diag_on_scan_complete, hen, hd0, hm]
      simp
    · intro h
      exact absurd h hm
    · intro _
      rfl

/-- A run of calls to `diag_on_scan_complete` while enabled, all with bitmaps of at least
12 bytes: the run finishes, keeps `enabled` and `scan_div`, and advances `scan_counter`
by the number of calls. -/
theorem scan_calls_counter (calls : List (List Nat × Nat × Nat)) :
    ∀ w : World, w.diag_state.enabled = true → 1 ≤ w.diag_state.scan_div →
      (∀ c ∈ calls, 12 ≤ c.1.length) →
      ∃ w', scan_calls calls w = some w'
        ∧ w'.diag_state.enabled = true
        ∧ w'.diag_state.scan_div = w.diag_state.scan_div
        ∧ w'.diag_state.scan_counter % 2 ^ 32 =
            (w.diag_state.scan_counter + calls.length) % 2 ^ 32 := by
  induction calls with
  | nil =>
    intro w _ _ _
    exact ⟨w, rfl, by assumption, rfl, by simp⟩
  | cons c cs ih =>
    intro w hen hd hbm
    obtain ⟨w1, h1, hs1, -, -⟩ :=
      scan_complete_enabled c.1 c.2.1 c.2.2 w hen hd (hbm c (List.mem_cons_self _ _))
    have hen1 : w1.diag_state.enabled = true := by rw [hs1]; exact hen
    have hd1 : w1.diag_state.scan_div = w.diag_state.scan_div := by rw [hs1]
    have hc1 : w1.diag_state.scan_counter = (w.diag_state.scan_counter + 1) % 2 ^ 32 := by
      rw [hs1]
    obtain ⟨w2, h2, hen2, hd2, hc2⟩ :=
      ih w1 hen1 (by rw [hd1]; exact hd) (fun c' hc' => hbm c' (List.mem_cons_of_mem _ hc'))
    refine ⟨w2, ?_, hen2, by rw [hd2, hd1], ?_⟩
    · simp only [scan_calls, h1, Option.some_bind, h2]
    · rw [hc2, hc1, List.length_cons]
      omega

/-! ## Claims on persistence -/

/-- C1 (amended): for every key below 85, from any state and any EEPROM contents,
SET_DEBOUNCE(key, ms), SAVE_EEPROM, a power cycle and LOAD_EEPROM all finish and leave
`diag_get_debounce(key) == ms` for every `ms` other than `0xFF`; for `ms = 0xFF`, the
blank marker, the load substitutes the default and `diag_get_debounce(key) == 5`. -/
theorem C1_debounce_roundtrip (base key ms : Nat) (ram : diag_state_t) (w : World)
    (hkey : key < KEY_COUNT_DIAG) :
    debounce_roundtrip base key ms ram w = some (if ms = 0xFF then 5 else ms) :=
  debounce_roundtrip_eq base key ms ram w hkey

/-- The round trip at key 3 with the value 40, from the sample enabled world. -/
theorem C1_debounce_roundtrip_witness :
    3 < KEY_COUNT_DIAG ∧
      debounce_roundtrip 32 3 40 diag_state_zero world_enabled =
        some (if 40 = 0xFF then 5 else 40) :=
  ⟨by decide, C1_debounce_roundtrip 32 3 40 diag_state_zero world_enabled (by decide)⟩

/-- C1 as stated fails for the byte `ms = 255`: with key 3 the value read back after the
round trip is 5, not 255. -/
theorem C1_counterexample :
    debounce_roundtrip 32 3 255 diag_state_zero world_enabled = some 5 ∧
      debounce_roundtrip 32 3 255 diag_state_zero world_enabled ≠ some 255 := by
  constructor <;> decide

/-- C2: for every key below 85 and every flag byte `b`, from any state and any EEPROM
contents, SET_EAGER(key, b), SAVE_EEPROM, a power cycle and LOAD_EEPROM all finish and
leave `diag_is_eager(key) == (b != 0)`. -/
theorem C2_eager_roundtrip (base key b : Nat) (ram : diag_state_t) (w : World)
    (hkey : key < KEY_COUNT_DIAG) :
    eager_roundtrip base key b ram w = some (b != 0) :=
  eager_roundtrip_eq base key b ram w hkey

/-- The round trip at key 3 with the flag byte 1, from the blank sample world. -/
theorem C2_eager_roundtrip_witness :
    3 < KEY_COUNT_DIAG ∧
      eager_roundtrip 32 3 1 diag_state_zero world_blank = some ((1 : Nat) != 0) :=
  ⟨by decide, C2_eager_roundtrip 32 3 1 diag_state_zero world_blank (by decide)⟩

/-- C3: `diag_load_from_eeprom` always finishes; afterwards, for every key `i`,
`debounce_ms[i]` is 5 if the stored debounce byte is `0xFF` and that byte otherwise, and
`eager_mode[i]` is true exactly when the stored eager byte is neither 0 nor `0xFF`; a
region of blank cells loads as debounce 5 and eager false for every key; the EEPROM,
the frames sent, the registers and every other field of the state are unchanged. -/
theorem C3_load_decodes (base : Nat) (w : World) :
    ∃ w', diag_load_from_eeprom base w = some w'
      ∧ (∀ i : Fin KEY_COUNT_DIAG,
          w'.diag_state.debounce_ms i =
            (if eeprom_read_byte w.eeprom (base + i.val) = 0xFF then 5
             else eeprom_read_byte w.eeprom (base + i.val))
          ∧ (w'.diag_state.eager_mode i = true ↔
              (eeprom_read_byte w.eeprom (base + KEY_COUNT_DIAG + i.val) ≠ 0
                ∧ eeprom_read_byte w.eeprom (base + KEY_COUNT_DIAG + i.val) ≠ 0xFF)))
      ∧ ((∀ a, base ≤ a → a < base + 2 * KEY_COUNT_DIAG → eeprom_read_byte w.eeprom a = 0xFF) →
          ∀ i : Fin KEY_COUNT_DIAG,
            diag_get_debounce i.val w' = some 5 ∧ diag_is_eager i.val w' = some false)
      ∧ w' = { w with diag_state := { w.diag_state with
                debounce_ms := w'.diag_state.debounce_ms
                eager_mode := w'.diag_state.eager_mode } } := by
  refine ⟨_, diag_load_from_eeprom_eq base w, ?_, ?_, rfl⟩
  · intro i
    constructor
    · rfl
    · simp
  · intro hblank i
    have hi := i.isLt
    have h1 := hblank (base + i.val) (by omega) (by omega)
    have h2 := hblank (base + KEY_COUNT_DIAG + i.val) (by omega) (by omega)
    have hle : ¬ KEY_COUNT_DIAG ≤ i.val := Nat.not_le.mpr hi
    simp [diag_get_debounce, diag_is_eager, arr_read, hle, h1, h2]

/-- C4 (amended): for every key below 85 and every stored eager byte `b`,
`diag_load_from_eeprom` decodes `eager_mode[key]` as true exactly when `b` is neither 0
nor `0xFF`: the byte 1 that save writes for true decodes to true, 0 and `0xFF` decode to
false, and every other value, such as 2, decodes to true. -/
theorem C4_eager_decode (base key : Nat) (w : World) (hkey : key < KEY_COUNT_DIAG) :
    ∃ w', diag_load_from_eeprom base w = some w'
      ∧ diag_is_eager key w' =
          some (eeprom_read_byte w.eeprom (base + KEY_COUNT_DIAG + key) != 0
            && eeprom_read_byte w.eeprom (base + KEY_COUNT_DIAG + key) != 0xFF) := by
  refine ⟨_, diag_load_from_eeprom_eq base w, ?_⟩
  have hle : ¬ KEY_COUNT_DIAG ≤ key := Nat.not_le.mpr hkey
  simp [diag_is_eager, arr_read, hle, hkey]

/-- The decoding of key 3 from the sample EEPROM whose cell 120 holds 120. -/
theorem C4_eager_decode_witness :
    3 < KEY_COUNT_DIAG ∧
      ∃ w', diag_load_from_eeprom 32 world_enabled = some w'
        ∧ diag_is_eager 3 w' =
            some (eeprom_read_byte world_enabled.eeprom (32 + KEY_COUNT_DIAG + 3) != 0
              && eeprom_read_byte world_enabled.eeprom (32 + KEY_COUNT_DIAG + 3) != 0xFF) :=
  ⟨by decide, C4_eager_decode 32 3 world_enabled (by decide)⟩

/-- C4 as stated fails for the stored eager byte 2: it is not the byte 1 that save
writes, yet key 0 is decoded as eager. -/
theorem C4_counterexample :
    eeprom_read_byte ({ world_blank with eeprom := fun _ => 2 } : World).eeprom
        (32 + KEY_COUNT_DIAG + 0) = 2
      ∧ (diag_load_from_eeprom 32 { world_blank with eeprom := fun _ => 2 }).bind
          (diag_is_eager 0) = some true := by
  constructor <;> decide

/-! ## Claims on the lifecycle hooks and the frames -/

/-- C5: while enabled, for every key below 85, `diag_on_post_debounce_edge` finishes,
sets `actuations[key]` to `(old + 1) mod 2^32` on a press and leaves it on a release,
changes no other field, and hands the transport exactly one frame of 32 bytes with
byte0 = 0x50, byte1 = key, byte2 = 2 and byte3 = 1 for a press, 0 for a release; for a
key of 85 or more it changes nothing and sends nothing. -/
theorem C5_post_debounce_edge (key : Nat) (pressed : Bool) (ts id : Nat) (w : World)
    (hen : w.diag_state.enabled = true) :
    (key < KEY_COUNT_DIAG →
      ∃ frame,
        diag_on_post_debounce_edge key pressed ts id w =
          some { w with
            diag_state := { w.diag_state with
              actuations := fun j =>
                if j.val = key ∧ pressed = true then (w.diag_state.actuations j + 1) % 2 ^ 32
                else w.diag_state.actuations j }
            sent := w.sent ++ [frame] }
        ∧ frame.length = 32
        ∧ frame.get? 0 = some 0x50 ∧ frame.get? 1 = some key ∧ frame.get? 2 = some 2
        ∧ frame.get? 3 = some (if pressed then 1 else 0))
    ∧ (KEY_COUNT_DIAG ≤ key → diag_on_post_debounce_edge key pressed ts id w = some w) := by
  obtain ⟨⟨en, sd, sc, ge, act, ch, db, eg, sr, scl⟩, ee, snt, r1, r2, r3, r4⟩ := w
  simp only at hen
  subst hen
  constructor
  · intro hkey
    have hle : ¬ KEY_COUNT_DIAG ≤ key := Nat.not_le.mpr hkey
    refine ⟨(edge_event_buf key 2 (if pressed then 1 else 0) ts id).take 32, ?_, ?_⟩
    · cases pressed
      · simp [diag_on_post_debounce_edge, hle, diag_send_edge_event, raw_hid_send]
      · simp only [diag_on_post_debounce_edge, hle, diag_send_edge_event, raw_hid_send,
          arr_read, arr_write, hkey]
        simp
        funext j
        by_cases hj : j.val = key
        · have : j = ⟨key, hkey⟩ := Fin.ext hj
          subst this
          simp
        · simp [hj]
    · rw [edge_event_buf_eq]
      simp [DIAG_CMD_EDGE]
  · intro hkey
    simp [diag_on_post_debounce_edge, hkey]

/-- A press of key 3 in the sample enabled world. -/
theorem C5_post_debounce_edge_witness :
    world_enabled.diag_state.enabled = true ∧
    ((3 < KEY_COUNT_DIAG →
      ∃ frame,
        diag_on_post_debounce_edge 3 true 1000 7 world_enabled =
          some { world_enabled with
            diag_state := { world_enabled.diag_state with
              actuations := fun j =>
                if j.val = 3 ∧ true = true then
                  (world_enabled.diag_state.actuations j + 1) % 2 ^ 32
                else world_enabled.diag_state.actuations j }
            sent := world_enabled.sent ++ [frame] }
        ∧ frame.length = 32
        ∧ frame.get? 0 = some 0x50 ∧ frame.get? 1 = some 3 ∧ frame.get? 2 = some 2
        ∧ frame.get? 3 = some (if true then 1 else 0))
    ∧ (KEY_COUNT_DIAG ≤ 3 →
        diag_on_post_debounce_edge 3 true 1000 7 world_enabled = some world_enabled)) :=
  ⟨rfl, C5_post_debounce_edge 3 true 1000 7 world_enabled rfl⟩

/-- C6: for every `scan_div` d in 1..255 and every n with 1 <= n < 2^32, after an
ENABLE command with byte1 != 0 and byte2 = d (from any state), followed by n - 1 calls
of `diag_on_scan_complete` and then the n-th one (bitmaps of at least 12 bytes), every
step finishes and the n-th call sends exactly one scan-summary frame when d divides n
and sends nothing otherwise. -/
theorem C6_scan_decimation (base b1 d n : Nat) (w : World)
    (calls : List (List Nat × Nat × Nat)) (bm : List Nat) (ts id : Nat)
    (hb1 : b1 ≠ 0) (hd1 : 1 ≤ d) (_hd2 : d ≤ 255)
    (hn : calls.length + 1 = n) (hn2 : n < 2 ^ 32)
    (hcalls : ∀ c ∈ calls, 12 ≤ c.1.length) (hbm : 12 ≤ bm.length) :
    ∃ w1 w2 w3,
      diag_process_command base [DIAG_CMD_ENABLE, b1, d] 3 w = some w1
      ∧ scan_calls calls w1 = some w2
      ∧ diag_on_scan_complete bm ts id w2 = some w3
      ∧ (d ∣ n → ∃ frame, w3.sent = w2.sent ++ [frame] ∧ frame.length = 32
            ∧ frame.get? 0 = some DIAG_CMD_SCAN_SUMMARY)
      ∧ (¬ d ∣ n → w3.sent = w2.sent) := by
  have hdpos : d > 0 := by omega
  obtain ⟨w2, h2, hen2, hdiv2, hc2⟩ := scan_calls_counter calls
    { w with diag_state := { w.diag_state with
        enabled := b1 != 0
        scan_div := if d > 0 then d else 1
        scan_counter := 0 } }
    (by simp [hb1]) (by simp [hdpos]; omega) hcalls
  have hdiv2' : w2.diag_state.scan_div = d := by rw [hdiv2]; simp [hdpos]
  obtain ⟨w3, h3, -, hyes, hno⟩ :=
    scan_complete_enabled bm ts id w2 hen2 (by rw [hdiv2']; exact hd1) hbm
  have hcnt : (w2.diag_state.scan_counter + 1) % 2 ^ 32 = n := by
    simp only [Nat.zero_add] at hc2
    omega
  rw [hcnt, hdiv2'] at hyes hno
  refine ⟨_, w2, w3, process_enable base b1 d w, h2, h3, ?_, ?_⟩
  · intro hdvd
    exact hyes (Nat.mod_eq_zero_of_dvd hdvd)
  · intro hndvd
    exact hno (fun h => hndvd (Nat.dvd_of_mod_eq_zero h))

/-- The fourth call after ENABLE with divisor 4. -/
theorem C6_scan_decimation_witness :
    (1 : Nat) ≠ 0 ∧ 1 ≤ 4 ∧ 4 ≤ 255
    ∧ [(List.replicate 12 0, 10, 1), (List.replicate 12 1, 20, 2),
        (List.replicate 12 2, 30, 3)].length + 1 = 4
    ∧ 4 < 2 ^ 32
    ∧ ∃ w1 w2 w3,
      diag_process_command 32 [DIAG_CMD_ENABLE, 1, 4] 3 world_blank = some w1
      ∧ scan_calls [(List.replicate 12 0, 10, 1), (List.replicate 12 1, 20, 2),
          (List.replicate 12 2, 30, 3)] w1 = some w2
      ∧ diag_on_scan_complete (List.replicate 12 3) 40 4 w2 = some w3
      ∧ (4 ∣ 4 → ∃ frame, w3.sent = w2.sent ++ [frame] ∧ frame.length = 32
            ∧ frame.get? 0 = some DIAG_CMD_SCAN_SUMMARY)
      ∧ (¬ 4 ∣ 4 → w3.sent = w2.sent) :=
  ⟨by decide, by decide, by decide, by decide, by decide,
    C6_scan_decimation 32 1 4 4 world_blank
      [(List.replicate 12 0, 10, 1), (List.replicate 12 1, 20, 2), (List.replicate 12 2, 30, 3)]
      (List.replicate 12 3) 40 4
      (by decide) (by decide) (by decide) (by decide) (by decide) (by decide) (by decide)⟩

/-- C7 (amended): for every bitmap of at least 12 bytes, `diag_send_scan_summary`
finishes and hands over one frame of 32 bytes whose bytes 12..23 are the first
`MATRIX_ROWS_DIAG * BITMAP_STRIDE = 12` bytes of the bitmap and whose bytes 24..31 are
zero; no bitmap byte at index 12 or more is read or copied: the call behaves the same on
the bitmap cut to its first 12 bytes. -/
theorem C7_scan_summary_payload (bitmap : List Nat) (ts id : Nat) (w : World)
    (hlen : 12 ≤ bitmap.length) :
    ∃ frame,
      diag_send_scan_summary bitmap ts id w = some { w with sent := w.sent ++ [frame] }
      ∧ frame.length = 32
      ∧ (∀ i, i < 12 → frame.get? (12 + i) = bitmap.get? i)
      ∧ (∀ i, 24 ≤ i → i < 32 → frame.get? i = some 0)
      ∧ diag_send_scan_summary (bitmap.take 12) ts id w = diag_send_scan_summary bitmap ts id w := by
  have hlen2 : 12 ≤ (bitmap.take 12).length := by simp [hlen]
  refine ⟨([DIAG_CMD_SCAN_SUMMARY, MATRIX_ROWS_DIAG, MATRIX_COLS_DIAG, BITMAP_STRIDE,
      ts % 256, ts / 2 ^ 8 % 256, ts / 2 ^ 16 % 256, ts / 2 ^ 24 % 256,
      id % 256, id / 2 ^ 8 % 256, id / 2 ^ 16 % 256, id / 2 ^ 24 % 256]
      ++ bitmap.take 12 ++ List.replicate 8 0).take 32, ?_, ?_, ?_, ?_, ?_⟩
  · simp only [diag_send_scan_summary, scan_summary_buf_eq bitmap ts id hlen, raw_hid_send,
      Option.bind_eq_bind, Option.some_bind]
    rfl
  · simp [hlen]
  · obtain ⟨b0, b1, b2, b3, b4, b5, b6, b7, b8, b9, b10, b11, rest, rfl⟩ :=
      twelve_bytes bitmap hlen
    intro i hi
    interval_cases i <;> rfl
  · obtain ⟨b0, b1, b2, b3, b4, b5, b6, b7, b8, b9, b10, b11, rest, rfl⟩ :=
      twelve_bytes bitmap hlen
    intro i h1 h2
    interval_cases i <;> rfl
  · simp only [diag_send_scan_summary, scan_summary_buf_eq bitmap ts id hlen,
      scan_summary_buf_eq (bitmap.take 12) ts id hlen2, List.take_take, Nat.min_self]

/-- The scan summary of the 20-byte bitmap 0, 1, ..., 19. -/
theorem C7_scan_summary_payload_witness :
    12 ≤ (List.range 20).length ∧
    ∃ frame,
      diag_send_scan_summary (List.range 20) 1000 7 world_blank =
        some { world_blank with sent := world_blank.sent ++ [frame] }
      ∧ frame.length = 32
      ∧ (∀ i, i < 12 → frame.get? (12 + i) = (List.range 20).get? i)
      ∧ (∀ i, 24 ≤ i → i < 32 → frame.get? i = some 0)
      ∧ diag_send_scan_summary ((List.range 20).take 12) 1000 7 world_blank =
          diag_send_scan_summary (List.range 20) 1000 7 world_blank :=
  ⟨by decide, C7_scan_summary_payload (List.range 20) 1000 7 world_blank (by decide)⟩

/-- C7 as stated fails on the 20-byte bitmap 1, 2, ..., 20: the frame sent has byte 24
equal to 0, while byte 12 of the bitmap is 13. -/
theorem C7_counterexample :
    (diag_send_scan_summary ((List.range 20).map (fun i => i + 1)) 0 0 world_blank).map
        (fun w => w.sent.map (fun frame => frame.get? (12 + 12))) = some [some 0]
      ∧ ((List.range 20).map (fun i => i + 1)).get? 12 = some 13 := by
  constructor <;> decide

/-- C8: for 32-bit `timestamp_us` and `scan_id`, `diag_send_edge_event` hands the
transport exactly one buffer, of exactly 32 bytes: byte0 = 0x50, byte1 = key,
byte2 = phase, byte3 = kind, bytes 4..7 and 8..11 the little-endian bytes of
`timestamp_us` and `scan_id`, bytes 12..31 zero; decoding bytes 4..7 and 8..11 as
little-endian integers gives back `timestamp_us` and `scan_id`. -/
theorem C8_edge_frame_layout (key phase kind ts id : Nat) (w : World)
    (hts : ts < 2 ^ 32) (hid : id < 2 ^ 32) :
    ∃ frame,
      diag_send_edge_event key phase kind ts id w = { w with sent := w.sent ++ [frame] }
      ∧ frame =
          [0x50, key, phase, kind,
            ts % 256, ts / 2 ^ 8 % 256, ts / 2 ^ 16 % 256, ts / 2 ^ 24 % 256,
            id % 256, id / 2 ^ 8 % 256, id / 2 ^ 16 % 256, id / 2 ^ 24 % 256]
          ++ List.replicate 20 0
      ∧ frame.length = 32
      ∧ le32_decode frame 4 = ts
      ∧ le32_decode frame 8 = id := by
  refine ⟨_, rfl, ?_, ?_, ?_, ?_⟩
  · rw [edge_event_buf_eq]
    simp [DIAG_CMD_EDGE]
  · rw [edge_event_buf_eq]
    simp
  · rw [edge_event_buf_eq]
    simp only [le32_decode, List.take, List.cons_append, List.getD_cons_succ,
      List.getD_cons_zero]
    exact le32_bytes ts hts
  · rw [edge_event_buf_eq]
    simp only [le32_decode, List.take, List.cons_append, List.getD_cons_succ,
      List.getD_cons_zero]
    exact le32_bytes id hid

/-- The edge frame for timestamp 0x12345678 and scan id 0xFFFFFFFF. -/
theorem C8_edge_frame_layout_witness :
    (305419896 : Nat) < 2 ^ 32 ∧ (4294967295 : Nat) < 2 ^ 32 ∧
    ∃ frame,
      diag_send_edge_event 3 2 1 305419896 4294967295 world_blank =
        { world_blank with sent := world_blank.sent ++ [frame] }
      ∧ frame =
          [0x50, 3, 2, 1,
            305419896 % 256, 305419896 / 2 ^ 8 % 256, 305419896 / 2 ^ 16 % 256,
            305419896 / 2 ^ 24 % 256,
            4294967295 % 256, 4294967295 / 2 ^ 8 % 256, 4294967295 / 2 ^ 16 % 256,
            4294967295 / 2 ^ 24 % 256]
          ++ List.replicate 20 0
      ∧ frame.length = 32
      ∧ le32_decode frame 4 = 305419896
      ∧ le32_decode frame 8 = 4294967295 :=
  ⟨by decide, by decide,
    C8_edge_frame_layout 3 2 1 305419896 4294967295 world_blank (by decide) (by decide)⟩

/-- C9: from any prior state `diag_init` finishes, and afterwards
`diag_get_debounce(key) == 5` and `diag_is_eager(key) == false` for every key below 85,
`enabled` is false, `scan_div` is 1, and `scan_counter`, `ghost_events`, every
`actuations[i]`, every `chatter[i]`, `stuck_rows` and `stuck_cols` are 0. -/
theorem C9_init_defaults (w : World) :
    ∃ w', diag_init w = some w'
      ∧ (∀ key, key < KEY_COUNT_DIAG →
          diag_get_debounce key w' = some 5 ∧ diag_is_eager key w' = some false)
      ∧ w'.diag_state.enabled = false
      ∧ w'.diag_state.scan_div = 1
      ∧ w'.diag_state.scan_counter = 0
      ∧ w'.diag_state.ghost_events = 0
      ∧ (∀ i, w'.diag_state.actuations i = 0)
      ∧ (∀ i, w'.diag_state.chatter i = 0)
      ∧ w'.diag_state.stuck_rows = 0
      ∧ w'.diag_state.stuck_cols = 0 := by
  refine ⟨_, diag_init_eq w, ?_, rfl, rfl, rfl, rfl, fun _ => rfl, fun _ => rfl, rfl, rfl⟩
  intro key hkey
  have hle : ¬ KEY_COUNT_DIAG ≤ key := Nat.not_le.mpr hkey
  simp [diag_get_debounce, diag_is_eager, arr_read, hle, hkey, timer_us_init, diag_state_init]

/-- C10: for every key of 85 or more and every state whatsoever,
`diag_get_debounce(key)` returns 5 and `diag_is_eager(key)` returns false, and both
calls finish without touching a per-key array. -/
theorem C10_out_of_range_key (key : Nat) (w : World) (hkey : KEY_COUNT_DIAG ≤ key) :
    diag_get_debounce key w = some 5 ∧ diag_is_eager key w = some false := by
  simp [diag_get_debounce, diag_is_eager, hkey]

/-- Both getters at key 200 in the sample enabled world. -/
theorem C10_out_of_range_key_witness :
    KEY_COUNT_DIAG ≤ 200 ∧
      diag_get_debounce 200 world_enabled = some 5 ∧ diag_is_eager 200 world_enabled = some false :=
  ⟨by decide, C10_out_of_range_key 200 world_enabled (by decide)⟩

/-! ## The command processor on arbitrary frames -/

/-- RESET on any frame of length at least 1. -/
theorem process_reset_any (base len : Nat) (rest : List Nat) (w : World) (hlen : 1 ≤ len) :
    diag_process_command base (DIAG_CMD_RESET :: rest) len w =
      some { w with diag_state := { w.diag_state with
        scan_counter := 0
        ghost_events := 0
        actuations := fun _ => 0
        chatter := fun _ => 0
        stuck_rows := 0
        stuck_cols := 0 } } := by
  have h1 : ¬ len < 1 := by omega
  simp [diag_process_command, ptr_read, h1, DIAG_CMD_RESET, DIAG_CMD_ENABLE]

/-- ENABLE on any frame of length at least 3. -/
theorem process_enable_any (base len b1 b2 : Nat) (rest : List Nat) (w : World)
    (hlen : 3 ≤ len) :
    diag_process_command base (DIAG_CMD_ENABLE :: b1 :: b2 :: rest) len w =
      some { w with diag_state := { w.diag_state with
        enabled := b1 != 0
        scan_div := if b2 > 0 then b2 else 1
        scan_counter := 0 } } := by
  have h1 : ¬ len < 1 := by omega
  simp [diag_process_command, ptr_read, h1, hlen, DIAG_CMD_ENABLE]

/-- SET_DEBOUNCE on any frame of length at least 3. -/
theorem process_set_debounce_any (base len key ms : Nat) (rest : List Nat) (w : World)
    (hlen : 3 ≤ len) :
    diag_process_command base (DIAG_CMD_SET_DEBOUNCE :: key :: ms :: rest) len w =
      some (if key < KEY_COUNT_DIAG then
        { w with diag_state := { w.diag_state with
          debounce_ms := fun j => if j.val = key then ms else w.diag_state.debounce_ms j } }
        else w) := by
  have h1 : ¬ len < 1 := by omega
  by_cases hkey : key < KEY_COUNT_DIAG
  · simp [diag_process_command, ptr_read, arr_write, h1, hlen, hkey, DIAG_CMD_SET_DEBOUNCE,
      DIAG_CMD_ENABLE, DIAG_CMD_RESET]
  · simp [diag_process_command, ptr_read, h1, hlen, hkey, DIAG_CMD_SET_DEBOUNCE,
      DIAG_CMD_ENABLE, DIAG_CMD_RESET]

/-- SET_EAGER on any frame of length at least 3. -/
theorem process_set_eager_any (base len key b : Nat) (rest : List Nat) (w : World)
    (hlen : 3 ≤ len) :
    diag_process_command base (DIAG_CMD_SET_EAGER :: key :: b :: rest) len w =
      some (if key < KEY_COUNT_DIAG then
        { w with diag_state := { w.diag_state with
          eager_mode := fun j => if j.val = key then (b != 0) else w.diag_state.eager_mode j } }
        else w) := by
  have h1 : ¬ len < 1 := by omega
  by_cases hkey : key < KEY_COUNT_DIAG
  · simp [diag_process_command, ptr_read, arr_write, h1, hlen, hkey, DIAG_CMD_SET_DEBOUNCE,
      DIAG_CMD_ENABLE, DIAG_CMD_RESET, DIAG_CMD_SET_EAGER]
  · simp [diag_process_command, ptr_read, h1, hlen, hkey, DIAG_CMD_SET_DEBOUNCE,
      DIAG_CMD_ENABLE, DIAG_CMD_RESET, DIAG_CMD_SET_EAGER]

/-- The inputs that the command processor drops: the empty input, a frame of fewer than
three bytes for ENABLE, SET_DEBOUNCE or SET_EAGER, METRICS_DUMP, and every code it does
not know.  Only byte 0 is read, and only when `len` is at least 1. -/
theorem process_dropped (base len : Nat) (data : List Nat) (w : World)
    (hdrop : len = 0 ∨ ∃ cmd, data.get? 0 = some cmd ∧
      (((cmd = DIAG_CMD_ENABLE ∨ cmd = DIAG_CMD_SET_DEBOUNCE ∨ cmd = DIAG_CMD_SET_EAGER)
          ∧ len < 3)
        ∨ cmd = DIAG_CMD_METRICS_DUMP
        ∨ (cmd ≠ DIAG_CMD_ENABLE ∧ cmd ≠ DIAG_CMD_RESET ∧ cmd ≠ DIAG_CMD_SET_DEBOUNCE
            ∧ cmd ≠ DIAG_CMD_SET_EAGER ∧ cmd ≠ DIAG_CMD_SAVE_EEPROM
            ∧ cmd ≠ DIAG_CMD_LOAD_EEPROM ∧ cmd ≠ DIAG_CMD_METRICS_DUMP))) :
    diag_process_command base data len w = some w := by
  by_cases h0 : len = 0
  · simp [diag_process_command, h0]
  · have h1 : ¬ len < 1 := by omega
    rcases hdrop with hz | ⟨cmd, hcmd, hcase⟩
    · exact absurd hz h0
    · have hread : ptr_read data 0 = some cmd := hcmd
      unfold diag_process_command
      generalize diag_save_to_eeprom base w = X
      generalize diag_load_from_eeprom base w = Y
      rcases hcase with ⟨hc, hlt⟩ | hm | ⟨n1, n2, n3, n4, n5, n6, n7⟩
      · have h3 : ¬ len ≥ 3 := by omega
        rcases hc with rfl | rfl | rfl
        · simp [hread, h1, h3]
        · simp [hread, h1, h3, DIAG_CMD_SET_DEBOUNCE, DIAG_CMD_ENABLE, DIAG_CMD_RESET]
        · simp [hread, h1, h3, DIAG_CMD_SET_DEBOUNCE, DIAG_CMD_ENABLE, DIAG_CMD_RESET,
            DIAG_CMD_SET_EAGER]
      · subst hm
        simp [hread, h1, DIAG_CMD_SET_DEBOUNCE, DIAG_CMD_ENABLE, DIAG_CMD_RESET,
          DIAG_CMD_SET_EAGER, DIAG_CMD_SAVE_EEPROM, DIAG_CMD_LOAD_EEPROM, DIAG_CMD_METRICS_DUMP,
          diag_send_metrics_dump]
      · simp [hread, h1, n1, n2, n3, n4, n5, n6, n7]

/-- SAVE_EEPROM on any frame of length at least 1. -/
theorem process_save_any (base len : Nat) (rest : List Nat) (w : World) (hlen : 1 ≤ len) :
    diag_process_command base (DIAG_CMD_SAVE_EEPROM :: rest) len w =
      diag_save_to_eeprom base w := by
  have h1 : ¬ len < 1 := by omega
  simp [diag_process_command, ptr_read, h1, DIAG_CMD_SET_DEBOUNCE, DIAG_CMD_ENABLE,
    DIAG_CMD_RESET, DIAG_CMD_SET_EAGER, DIAG_CMD_SAVE_EEPROM]

/-- LOAD_EEPROM on any frame of length at least 1. -/
theorem process_load_any (base len : Nat) (rest : List Nat) (w : World) (hlen : 1 ≤ len) :
    diag_process_command base (DIAG_CMD_LOAD_EEPROM :: rest) len w =
      diag_load_from_eeprom base w := by
  have h1 : ¬ len < 1 := by omega
  simp [diag_process_command, ptr_read, h1, DIAG_CMD_SET_DEBOUNCE, DIAG_CMD_ENABLE,
    DIAG_CMD_RESET, DIAG_CMD_SET_EAGER, DIAG_CMD_SAVE_EEPROM, DIAG_CMD_LOAD_EEPROM]

/-! ## The range of `scan_div` -/

/-- Any command on a buffer of at least `len` bytes finishes, and either keeps `enabled`
and `scan_div` or leaves `scan_div` in 1..255. -/
theorem process_command_scan_div (base len : Nat) (data : List Nat) (w : World)
    (hbuf : len ≤ data.length) (hbytes : ∀ b ∈ data, b < 256) :
    ∃ w', diag_process_command base data len w = some w'
      ∧ ((w'.diag_state.enabled = w.diag_state.enabled
            ∧ w'.diag_state.scan_div = w.diag_state.scan_div)
          ∨ (1 ≤ w'.diag_state.scan_div ∧ w'.diag_state.scan_div ≤ 255)) := by
  by_cases h0 : len = 0
  · exact ⟨w, process_dropped base len data w (Or.inl h0), Or.inl ⟨rfl, rfl⟩⟩
  have h1 : 1 ≤ len := by omega
  cases data with
  | nil => simp at hbuf; omega
  | cons c rest =>
    by_cases h3 : len < 3
    · by_cases hc : c = DIAG_CMD_RESET
      · subst hc
        exact ⟨_, process_reset_any base len rest w h1, Or.inl ⟨rfl, rfl⟩⟩
      by_cases hs : c = DIAG_CMD_SAVE_EEPROM
      · subst hs
        obtain ⟨e, he, -⟩ := diag_save_to_eeprom_spec base w
        rw [process_save_any base len rest w h1, he]
        exact ⟨_, rfl, Or.inl ⟨rfl, rfl⟩⟩
      by_cases hl : c = DIAG_CMD_LOAD_EEPROM
      · subst hl
        rw [process_load_any base len rest w h1, diag_load_from_eeprom_eq]
        exact ⟨_, rfl, Or.inl ⟨rfl, rfl⟩⟩
      refine ⟨w, process_dropped base len (c :: rest) w (Or.inr ⟨c, rfl, ?_⟩), Or.inl ⟨rfl, rfl⟩⟩
      by_cases he : c = DIAG_CMD_ENABLE
      · exact Or.inl ⟨Or.inl he, h3⟩
      by_cases hd : c = DIAG_CMD_SET_DEBOUNCE
      · exact Or.inl ⟨Or.inr (Or.inl hd), h3⟩
      by_cases hg : c = DIAG_CMD_SET_EAGER
      · exact Or.inl ⟨Or.inr (Or.inr hg), h3⟩
      by_cases hm : c = DIAG_CMD_METRICS_DUMP
      · exact Or.inr (Or.inl hm)
      · exact Or.inr (Or.inr ⟨he, hc, hd, hg, hs, hl, hm⟩)
    · have h3' : 3 ≤ len := by omega
      obtain ⟨b1, b2, rest2, rfl⟩ : ∃ b1 b2 rest2, rest = b1 :: b2 :: rest2 := by
        rcases rest with _ | ⟨b1, _ | ⟨b2, rest2⟩⟩
        · simp at hbuf; omega
        · simp at hbuf; omega
        · exact ⟨b1, b2, rest2, rfl⟩
      by_cases he : c = DIAG_CMD_ENABLE
      · subst he
        refine ⟨_, process_enable_any base len b1 b2 rest2 w h3', Or.inr ?_⟩
        have hb2 : b2 < 256 := hbytes b2 (by simp)
        by_cases hpos : b2 > 0
        · simp only [hpos, if_true]; omega
        · simp only [hpos, if_false]; omega
      by_cases hc : c = DIAG_CMD_RESET
      · subst hc
        exact ⟨_, process_reset_any base len _ w h1, Or.inl ⟨rfl, rfl⟩⟩
      by_cases hd : c = DIAG_CMD_SET_DEBOUNCE
      · subst hd
        refine ⟨_, process_set_debounce_any base len b1 b2 rest2 w h3', Or.inl ?_⟩
        split <;> exact ⟨rfl, rfl⟩
      by_cases hg : c = DIAG_CMD_SET_EAGER
      · subst hg
        refine ⟨_, process_set_eager_any base len b1 b2 rest2 w h3', Or.inl ?_⟩
        split <;> exact ⟨rfl, rfl⟩
      by_cases hs : c = DIAG_CMD_SAVE_EEPROM
      · subst hs
        obtain ⟨e, hsave, -⟩ := diag_save_to_eeprom_spec base w
        rw [process_save_any base len _ w h1, hsave]
        exact ⟨_, rfl, Or.inl ⟨rfl, rfl⟩⟩
      by_cases hl : c = DIAG_CMD_LOAD_EEPROM
      · subst hl
        rw [process_load_any base len _ w h1, diag_load_from_eeprom_eq]
        exact ⟨_, rfl, Or.inl ⟨rfl, rfl⟩⟩
      refine ⟨w, process_dropped base len _ w (Or.inr ⟨c, rfl, ?_⟩), Or.inl ⟨rfl, rfl⟩⟩
      by_cases hm : c = DIAG_CMD_METRICS_DUMP
      · exact Or.inr (Or.inl hm)
      · exact Or.inr (Or.inr ⟨he, hc, hd, hg, hs, hl, hm⟩)

/-- The hook `diag_on_post_debounce_edge` always finishes and keeps `enabled` and
`scan_div`. -/
theorem post_debounce_edge_keeps_gate (key : Nat) (pressed : Bool) (ts id : Nat) (w : World) :
    ∃ w', diag_on_post_debounce_edge key pressed ts id w = some w'
      ∧ w'.diag_state.enabled = w.diag_state.enabled
      ∧ w'.diag_state.scan_div = w.diag_state.scan_div := by
  by_cases hen : w.diag_state.enabled = true
  · by_cases hkey : KEY_COUNT_DIAG ≤ key
    · exact ⟨w, by simp [diag_on_post_debounce_edge, hen, hkey], rfl, rfl⟩
    · have hlt : key < KEY_COUNT_DIAG := Nat.lt_of_not_le hkey
      cases pressed
      · simp only [diag_on_post_debounce_edge, hen, hkey, Bool.not_true, Bool.false_eq_true,
          if_false, ge_iff_le, Option.pure_def, Option.bind_eq_bind, Option.some_bind]
        exact ⟨_, rfl, hen, rfl⟩
      · simp only [diag_on_post_debounce_edge, hen, hkey, Bool.not_true, Bool.false_eq_true,
          if_false, ge_iff_le, Option.pure_def, Option.bind_eq_bind, Option.some_bind,
          if_true, arr_read, arr_write, hlt, dite_true]
        exact ⟨_, rfl, rfl, rfl⟩
  · have hdis : w.diag_state.enabled = false := by simpa using hen
    exact ⟨w, by simp [diag_on_post_debounce_edge, hdis], rfl, rfl⟩

/-- Any valid call made in a state where `enabled` implies `scan_div >= 1` finishes, and
either keeps `enabled` and `scan_div` or leaves `scan_div` in 1..255. -/
theorem run_call_scan_div (base : Nat) (c : DiagCall) (w : World)
    (hvalid : call_valid c = true)
    (hinv : w.diag_state.enabled = true → 1 ≤ w.diag_state.scan_div) :
    ∃ w', run_call base c w = some w'
      ∧ ((w'.diag_state.enabled = w.diag_state.enabled
            ∧ w'.diag_state.scan_div = w.diag_state.scan_div)
          ∨ (1 ≤ w'.diag_state.scan_div ∧ w'.diag_state.scan_div ≤ 255)) := by
  cases c with
  | process_command data len =>
    simp only [call_valid, Bool.and_eq_true, decide_eq_true_eq, List.all_eq_true] at hvalid
    exact process_command_scan_div base len data w hvalid.1 hvalid.2
  | on_pre_debounce_edge key pressed ts id =>
    by_cases hen : w.diag_state.enabled = true
    · by_cases hkey : KEY_COUNT_DIAG ≤ key
      · exact ⟨w, by simp [run_call, diag_on_pre_debounce_edge, hen, hkey], Or.inl ⟨rfl, rfl⟩⟩
      · simp only [run_call, diag_on_pre_debounce_edge, hen, hkey, Bool.not_true,
          Bool.false_eq_true, if_false, ge_iff_le]
        exact ⟨_, rfl, Or.inl ⟨hen, rfl⟩⟩
    · have hdis : w.diag_state.enabled = false := by simpa using hen
      exact ⟨w, by simp [run_call, diag_on_pre_debounce_edge, hdis], Or.inl ⟨rfl, rfl⟩⟩
  | on_post_debounce_edge key pressed ts id =>
    obtain ⟨w', hrun, h1, h2⟩ := post_debounce_edge_keeps_gate key pressed ts id w
    exact ⟨w', hrun, Or.inl ⟨h1, h2⟩⟩
  | on_scan_complete bm ts id =>
    simp only [call_valid, decide_eq_true_eq] at hvalid
    by_cases hen : w.diag_state.enabled = true
    · obtain ⟨w', h1, hs, -, -⟩ := scan_complete_enabled bm ts id w hen (hinv hen) hvalid
      exact ⟨w', h1, Or.inl ⟨by rw [hs], by rw [hs]⟩⟩
    · have hdis : w.diag_state.enabled = false := by simpa using hen
      exact ⟨w, by simp [run_call, diag_on_scan_complete, hdis], Or.inl ⟨rfl, rfl⟩⟩
  | save_to_eeprom =>
    obtain ⟨e, hsave, -⟩ := diag_save_to_eeprom_spec base w
    exact ⟨_, hsave, Or.inl ⟨rfl, rfl⟩⟩
  | load_from_eeprom =>
    exact ⟨_, diag_load_from_eeprom_eq base w, Or.inl ⟨rfl, rfl⟩⟩

/-- A sequence of valid calls started in a state where `enabled` implies `scan_div >= 1`
finishes in such a state; if `scan_div` starts in 1..255 it also ends there. -/
theorem run_calls_scan_div (base : Nat) (calls : List DiagCall) :
    ∀ w : World, (∀ c ∈ calls, call_valid c = true) →
      (w.diag_state.enabled = true → 1 ≤ w.diag_state.scan_div) →
      ∃ w', run_calls base calls w = some w'
        ∧ (w'.diag_state.enabled = true → 1 ≤ w'.diag_state.scan_div)
        ∧ ((1 ≤ w.diag_state.scan_div ∧ w.diag_state.scan_div ≤ 255) →
            (1 ≤ w'.diag_state.scan_div ∧ w'.diag_state.scan_div ≤ 255)) := by
  induction calls with
  | nil =>
    intro w _ hinv
    exact ⟨w, rfl, hinv, fun h => h⟩
  | cons c cs ih =>
    intro w hvalid hinv
    obtain ⟨w1, h1, hkeep⟩ :=
      run_call_scan_div base c w (hvalid c (List.mem_cons_self _ _)) hinv
    have hinv1 : w1.diag_state.enabled = true → 1 ≤ w1.diag_state.scan_div := by
      rcases hkeep with ⟨he, hd⟩ | ⟨hlo, -⟩
      · intro h
        rw [hd]
        exact hinv (by rw [← he]; exact h)
      · exact fun _ => hlo
    obtain ⟨w2, h2, hinv2, hrange2⟩ :=
      ih w1 (fun c' hc' => hvalid c' (List.mem_cons_of_mem _ hc')) hinv1
    refine ⟨w2, by simp only [run_calls, h1, Option.some_bind, h2], hinv2, ?_⟩
    intro hr
    apply hrange2
    rcases hkeep with ⟨-, hd⟩ | hr1
    · rw [hd]; exact hr
    · exact hr1


/-! ## Claims on the command processor -/

/-- C11: for every state and every command frame of length at least 1 whose byte0 is
RESET (0x5B), `diag_process_command` finishes, sets `scan_counter`, `ghost_events`, every
`actuations[i]`, every `chatter[i]`, `stuck_rows` and `stuck_cols` to 0, leaves
`debounce_ms[]`, `eager_mode[]`, `enabled` and `scan_div` as they were, sends no frame
and writes no EEPROM byte. -/
theorem C11_reset (base len : Nat) (rest : List Nat) (w : World) (hlen : 1 ≤ len) :
    ∃ w', diag_process_command base (DIAG_CMD_RESET :: rest) len w = some w'
      ∧ w'.diag_state.scan_counter = 0
      ∧ w'.diag_state.ghost_events = 0
      ∧ (∀ i, w'.diag_state.actuations i = 0)
      ∧ (∀ i, w'.diag_state.chatter i = 0)
      ∧ w'.diag_state.stuck_rows = 0
      ∧ w'.diag_state.stuck_cols = 0
      ∧ w'.diag_state.debounce_ms = w.diag_state.debounce_ms
      ∧ w'.diag_state.eager_mode = w.diag_state.eager_mode
      ∧ w'.diag_state.enabled = w.diag_state.enabled
      ∧ w'.diag_state.scan_div = w.diag_state.scan_div
      ∧ w'.sent = w.sent
      ∧ w'.eeprom = w.eeprom :=
  ⟨_, process_reset_any base len rest w hlen, rfl, rfl, fun _ => rfl, fun _ => rfl, rfl, rfl,
    rfl, rfl, rfl, rfl, rfl, rfl⟩

/-- A RESET frame of 32 bytes in the sample enabled world. -/
theorem C11_reset_witness :
    1 ≤ 32 ∧
    ∃ w', diag_process_command 32 (DIAG_CMD_RESET :: List.replicate 31 0) 32 world_enabled
        = some w'
      ∧ w'.diag_state.scan_counter = 0
      ∧ w'.diag_state.ghost_events = 0
      ∧ (∀ i, w'.diag_state.actuations i = 0)
      ∧ (∀ i, w'.diag_state.chatter i = 0)
      ∧ w'.diag_state.stuck_rows = 0
      ∧ w'.diag_state.stuck_cols = 0
      ∧ w'.diag_state.debounce_ms = world_enabled.diag_state.debounce_ms
      ∧ w'.diag_state.eager_mode = world_enabled.diag_state.eager_mode
      ∧ w'.diag_state.enabled = world_enabled.diag_state.enabled
      ∧ w'.diag_state.scan_div = world_enabled.diag_state.scan_div
      ∧ w'.sent = world_enabled.sent
      ∧ w'.eeprom = world_enabled.eeprom :=
  ⟨by decide, C11_reset 32 32 (List.replicate 31 0) world_enabled (by decide)⟩

/-- C12: for every state and every command frame with byte0 = ENABLE (0x5A) and
`len >= 3`, `diag_process_command` finishes and sets `enabled = (byte1 != 0)`,
`scan_div = byte2` if `byte2 > 0` and 1 otherwise, and `scan_counter = 0`; every other
field of the state, the EEPROM and the frames sent are unchanged. -/
theorem C12_enable (base len b1 b2 : Nat) (rest : List Nat) (w : World) (hlen : 3 ≤ len) :
    diag_process_command base (DIAG_CMD_ENABLE :: b1 :: b2 :: rest) len w =
      some { w with diag_state := { w.diag_state with
        enabled := b1 != 0
        scan_div := if b2 > 0 then b2 else 1
        scan_counter := 0 } } :=
  process_enable_any base len b1 b2 rest w hlen

/-- ENABLE with byte1 = 1 and byte2 = 0 in the blank sample world. -/
theorem C12_enable_witness :
    3 ≤ 3 ∧
    diag_process_command 32 (DIAG_CMD_ENABLE :: 1 :: 0 :: []) 3 world_blank =
      some { world_blank with diag_state := { world_blank.diag_state with
        enabled := (1 : Nat) != 0
        scan_div := if 0 > 0 then 0 else 1
        scan_counter := 0 } } :=
  ⟨by decide, C12_enable 32 3 1 0 [] world_blank (by decide)⟩

/-- C13: for every state and every command frame with `len >= 3`, SET_DEBOUNCE (0x5C)
with byte1 < 85 sets `debounce_ms[byte1] = byte2` and SET_EAGER (0x5D) with byte1 < 85
sets `eager_mode[byte1] = (byte2 != 0)`, each changing no other array entry and no other
field; with byte1 >= 85 either command finishes with the whole world unchanged, so no
per-key array is indexed. -/
theorem C13_set_config (base len key v : Nat) (rest : List Nat) (w : World)
    (hlen : 3 ≤ len) :
    (key < KEY_COUNT_DIAG →
      diag_process_command base (DIAG_CMD_SET_DEBOUNCE :: key :: v :: rest) len w =
        some { w with diag_state := { w.diag_state with
          debounce_ms := fun j => if j.val = key then v else w.diag_state.debounce_ms j } }
      ∧ diag_process_command base (DIAG_CMD_SET_EAGER :: key :: v :: rest) len w =
        some { w with diag_state := { w.diag_state with
          eager_mode := fun j =>
            if j.val = key then (v != 0) else w.diag_state.eager_mode j } })
    ∧ (KEY_COUNT_DIAG ≤ key →
      diag_process_command base (DIAG_CMD_SET_DEBOUNCE :: key :: v :: rest) len w = some w
      ∧ diag_process_command base (DIAG_CMD_SET_EAGER :: key :: v :: rest) len w = some w) := by
  constructor
  · intro hkey
    rw [process_set_debounce_any base len key v rest w hlen,
      process_set_eager_any base len key v rest w hlen]
    simp [hkey]
  · intro hkey
    have hlt : ¬ key < KEY_COUNT_DIAG := Nat.not_lt.mpr hkey
    rw [process_set_debounce_any base len key v rest w hlen,
      process_set_eager_any base len key v rest w hlen]
    simp [hlt]

/-- Both commands at key 84 with the value 7 in the blank sample world. -/
theorem C13_set_config_witness :
    3 ≤ 3 ∧
    ((84 < KEY_COUNT_DIAG →
      diag_process_command 32 (DIAG_CMD_SET_DEBOUNCE :: 84 :: 7 :: []) 3 world_blank =
        some { world_blank with diag_state := { world_blank.diag_state with
          debounce_ms := fun j =>
            if j.val = 84 then 7 else world_blank.diag_state.debounce_ms j } }
      ∧ diag_process_command 32 (DIAG_CMD_SET_EAGER :: 84 :: 7 :: []) 3 world_blank =
        some { world_blank with diag_state := { world_blank.diag_state with
          eager_mode := fun j =>
            if j.val = 84 then ((7 : Nat) != 0) else world_blank.diag_state.eager_mode j } })
    ∧ (KEY_COUNT_DIAG ≤ 84 →
      diag_process_command 32 (DIAG_CMD_SET_DEBOUNCE :: 84 :: 7 :: []) 3 world_blank
        = some world_blank
      ∧ diag_process_command 32 (DIAG_CMD_SET_EAGER :: 84 :: 7 :: []) 3 world_blank
        = some world_blank)) :=
  ⟨by decide, C13_set_config 32 3 84 7 [] world_blank (by decide)⟩

/-- C14: `diag_process_command` finishes with the state, the EEPROM and the frames sent
unchanged for every input that is empty (`len = 0`), or ENABLE, SET_DEBOUNCE or SET_EAGER
with `len < 3`, or METRICS_DUMP (0x52), or a command code outside 0x5A, 0x5B, 0x5C, 0x5D,
0x4A, 0x4B, 0x52 (the reserved SET_SCANMASK 0x5E among them).  It does the same on the
buffer cut to its first `len` bytes, so no byte at an index `>= len` is read. -/
theorem C14_dropped_inputs (base len : Nat) (data : List Nat) (w : World)
    (hdrop : len = 0 ∨ ∃ cmd, data.get? 0 = some cmd ∧
      (((cmd = DIAG_CMD_ENABLE ∨ cmd = DIAG_CMD_SET_DEBOUNCE ∨ cmd = DIAG_CMD_SET_EAGER)
          ∧ len < 3)
        ∨ cmd = DIAG_CMD_METRICS_DUMP
        ∨ (cmd ≠ DIAG_CMD_ENABLE ∧ cmd ≠ DIAG_CMD_RESET ∧ cmd ≠ DIAG_CMD_SET_DEBOUNCE
            ∧ cmd ≠ DIAG_CMD_SET_EAGER ∧ cmd ≠ DIAG_CMD_SAVE_EEPROM
            ∧ cmd ≠ DIAG_CMD_LOAD_EEPROM ∧ cmd ≠ DIAG_CMD_METRICS_DUMP))) :
    diag_process_command base data len w = some w
      ∧ diag_process_command base (data.take len) len w = some w := by
  refine ⟨process_dropped base len data w hdrop, process_dropped base len _ w ?_⟩
  rcases hdrop with hz | ⟨cmd, hcmd, hcase⟩
  · exact Or.inl hz
  · by_cases h0 : len = 0
    · exact Or.inl h0
    · refine Or.inr ⟨cmd, ?_, hcase⟩
      obtain ⟨k, rfl⟩ : ∃ k, len = k + 1 := ⟨len - 1, by omega⟩
      cases data with
      | nil => simp at hcmd
      | cons c rest => simpa using hcmd

/-- A two-byte SET_DEBOUNCE frame inside a longer buffer, in the sample enabled world. -/
theorem C14_dropped_inputs_witness :
    (2 = 0 ∨ ∃ cmd, [DIAG_CMD_SET_DEBOUNCE, 3, 9, 9].get? 0 = some cmd ∧
      (((cmd = DIAG_CMD_ENABLE ∨ cmd = DIAG_CMD_SET_DEBOUNCE ∨ cmd = DIAG_CMD_SET_EAGER)
          ∧ 2 < 3)
        ∨ cmd = DIAG_CMD_METRICS_DUMP
        ∨ (cmd ≠ DIAG_CMD_ENABLE ∧ cmd ≠ DIAG_CMD_RESET ∧ cmd ≠ DIAG_CMD_SET_DEBOUNCE
            ∧ cmd ≠ DIAG_CMD_SET_EAGER ∧ cmd ≠ DIAG_CMD_SAVE_EEPROM
            ∧ cmd ≠ DIAG_CMD_LOAD_EEPROM ∧ cmd ≠ DIAG_CMD_METRICS_DUMP)))
    ∧ diag_process_command 32 [DIAG_CMD_SET_DEBOUNCE, 3, 9, 9] 2 world_enabled
        = some world_enabled
    ∧ diag_process_command 32 ([DIAG_CMD_SET_DEBOUNCE, 3, 9, 9].take 2) 2 world_enabled
        = some world_enabled :=
  ⟨Or.inr ⟨DIAG_CMD_SET_DEBOUNCE, rfl, Or.inl ⟨Or.inr (Or.inl rfl), by decide⟩⟩,
    C14_dropped_inputs 32 2 [DIAG_CMD_SET_DEBOUNCE, 3, 9, 9] world_enabled
      (Or.inr ⟨DIAG_CMD_SET_DEBOUNCE, rfl, Or.inl ⟨Or.inr (Or.inl rfl), by decide⟩⟩)⟩

/-- C15: for every state with `enabled == false` and all arguments,
`diag_on_pre_debounce_edge`, `diag_on_post_debounce_edge` and `diag_on_scan_complete`
finish with the whole world unchanged: no counter moves and no frame is sent. -/
theorem C15_disabled_hooks (key : Nat) (pressed : Bool) (bitmap : List Nat) (ts id : Nat)
    (w : World) (hdis : w.diag_state.enabled = false) :
    diag_on_pre_debounce_edge key pressed ts id w = some w
      ∧ diag_on_post_debounce_edge key pressed ts id w = some w
      ∧ diag_on_scan_complete bitmap ts id w = some w := by
  simp [diag_on_pre_debounce_edge, diag_on_post_debounce_edge, diag_on_scan_complete, hdis]

/-- The three hooks in the blank sample world, which is disabled and has `scan_div = 0`. -/
theorem C15_disabled_hooks_witness :
    world_blank.diag_state.enabled = false
      ∧ diag_on_pre_debounce_edge 3 true 1000 7 world_blank = some world_blank
      ∧ diag_on_post_debounce_edge 3 true 1000 7 world_blank = some world_blank
      ∧ diag_on_scan_complete [] 1000 7 world_blank = some world_blank :=
  ⟨rfl, C15_disabled_hooks 3 true [] 1000 7 world_blank rfl⟩

/-- C16: for every state and every EEPROM content, `diag_save_to_eeprom` finishes;
afterwards the byte at `base + i` equals `debounce_ms[i]` and the byte at `base + 85 + i`
is 1 if `eager_mode[i]` and 0 otherwise, for every `i < 85`; every EEPROM byte outside
the 170 bytes from `base` on is unchanged, and so is everything but the EEPROM. -/
theorem C16_save_layout (base : Nat) (w : World) :
    ∃ e, diag_save_to_eeprom base w = some { w with eeprom := e }
      ∧ (∀ i : Fin KEY_COUNT_DIAG,
          eeprom_read_byte e (base + i.val) = w.diag_state.debounce_ms i
          ∧ eeprom_read_byte e (base + KEY_COUNT_DIAG + i.val) =
              (if w.diag_state.eager_mode i then 1 else 0))
      ∧ (∀ a, a < base ∨ base + 2 * KEY_COUNT_DIAG ≤ a →
          eeprom_read_byte e a = eeprom_read_byte w.eeprom a) := by
  obtain ⟨e, hs, hd, he, ho⟩ := diag_save_to_eeprom_spec base w
  exact ⟨e, hs, fun i => ⟨hd i, he i⟩, ho⟩


/-! ## Claims on the microsecond clock -/

/-- C17: for all 32-bit values `now` (the reading `timer_read_us` returns) and `last`,
`timer_elapsed_us(last)` equals `(now - last) mod 2^32`: it is `now - last` when
`now >= last` and `(UINT32_MAX - last) + now + 1` when `now < last`, and no intermediate
32-bit reduction changes the result. -/
theorem C17_elapsed_wraps (now last : Nat) (hnow : now < 2 ^ 32) (hlast : last < 2 ^ 32) :
    ((timer_elapsed_us_at now last : Nat) : Int) = ((now : Int) - (last : Int)) % 2 ^ 32
      ∧ (now ≥ last → timer_elapsed_us_at now last = now - last)
      ∧ (now < last → timer_elapsed_us_at now last = (UINT32_MAX - last) + now + 1)
      ∧ (∀ w : World, timer_read_us w = now →
          timer_elapsed_us last w = timer_elapsed_us_at now last) := by
  refine ⟨?_, ?_, ?_, ?_⟩
  · unfold timer_elapsed_us_at UINT32_MAX
    split <;> omega
  · intro h
    unfold timer_elapsed_us_at
    rw [if_pos h]
    omega
  · intro h
    unfold timer_elapsed_us_at UINT32_MAX
    rw [if_neg (by omega)]
    omega
  · intro w hw
    unfold timer_elapsed_us timer_elapsed_us_at
    simp only [hw]

/-- The example of the specification: `last = UINT32_MAX - 1` and a counter at 168
cycles, which reads as `now = 1`, give 3. -/
theorem C17_elapsed_wraps_witness :
    (1 : Nat) < 2 ^ 32 ∧ (4294967294 : Nat) < 2 ^ 32
    ∧ (((timer_elapsed_us_at 1 4294967294 : Nat) : Int) =
          (((1 : Nat) : Int) - ((4294967294 : Nat) : Int)) % 2 ^ 32
      ∧ (1 ≥ 4294967294 → timer_elapsed_us_at 1 4294967294 = 1 - 4294967294)
      ∧ (1 < 4294967294 →
          timer_elapsed_us_at 1 4294967294 = (UINT32_MAX - 4294967294) + 1 + 1)
      ∧ (∀ w : World, timer_read_us w = 1 →
          timer_elapsed_us 4294967294 w = timer_elapsed_us_at 1 4294967294))
    ∧ timer_read_us (world_at_cycle 168) = 1
    ∧ timer_elapsed_us 4294967294 (world_at_cycle 168) = 3 :=
  ⟨by decide, by decide, C17_elapsed_wraps 1 4294967294 (by decide) (by decide),
    by decide, by decide⟩

/-- C18 fails on the code.  The cycle counter reads `2^32 - 168` at the first reading and
has wrapped to 0 at the second, 168 cycles (one microsecond) later; `timer_elapsed_us`
returns 4269402016 microseconds. -/
theorem C18_wrap_divergence :
    timer_read_us (world_at_cycle 4294967128) = 25565280
      ∧ timer_read_us (world_at_cycle 0) = 0
      ∧ timer_elapsed_us (timer_read_us (world_at_cycle 4294967128)) (world_at_cycle 0)
          = 4269402016
      ∧ ((0 + 2 ^ 32 - 4294967128) % 2 ^ 32) * 1000000 / F_CPU = 1 := by
  refine ⟨by decide, by decide, by decide, by decide⟩

/-- C19: with `F_CPU = 168000000`, for every 32-bit cycle count
`c = (CYCCNT + cyccnt_offset) mod 2^32`, `timer_read_us` returns exactly
`floor(c * 1000000 / F_CPU)`: the product stays below `2^64`, the result is at most
25565281 and so survives the cast to 32 bits, and the result is non-decreasing in `c`. -/
theorem C19_read_us_exact (w : World) :
    timer_read_us w = ((w.CYCCNT + w.cyccnt_offset) % 2 ^ 32) * 1000000 / F_CPU
      ∧ ((w.CYCCNT + w.cyccnt_offset) % 2 ^ 32) * 1000000 < 2 ^ 64
      ∧ timer_read_us w ≤ 25565281
      ∧ (∀ w2 : World,
          (w.CYCCNT + w.cyccnt_offset) % 2 ^ 32 ≤ (w2.CYCCNT + w2.cyccnt_offset) % 2 ^ 32 →
          timer_read_us w ≤ timer_read_us w2) := by
  have hread : ∀ v : World,
      timer_read_us v = ((v.CYCCNT + v.cyccnt_offset) % 2 ^ 32) * 1000000 / 168000000
        ∧ ((v.CYCCNT + v.cyccnt_offset) % 2 ^ 32) * 1000000 < 2 ^ 64 := by
    intro v
    have hc : (v.CYCCNT + v.cyccnt_offset) % 2 ^ 32 < 2 ^ 32 := Nat.mod_lt _ (by norm_num)
    unfold timer_read_us F_CPU
    simp only
    generalize (v.CYCCNT + v.cyccnt_offset) % 2 ^ 32 = c at hc ⊢
    have h64 : c * 1000000 < 2 ^ 64 := by omega
    have hq : c * 1000000 / 168000000 < 2 ^ 32 := by omega
    rw [Nat.mod_eq_of_lt h64, Nat.mod_eq_of_lt hq]
    exact ⟨rfl, h64⟩
  obtain ⟨h1, h2⟩ := hread w
  refine ⟨by rw [h1]; rfl, h2, ?_, ?_⟩
  · have hc : (w.CYCCNT + w.cyccnt_offset) % 2 ^ 32 < 2 ^ 32 := Nat.mod_lt _ (by norm_num)
    rw [h1]
    generalize (w.CYCCNT + w.cyccnt_offset) % 2 ^ 32 = c at hc ⊢
    omega
  · intro w2 hle
    rw [h1, (hread w2).1]
    exact Nat.div_le_div_right (Nat.mul_le_mul_right _ hle)


/-! ## Claim on the scan divisor -/

/-- C20: every sequence of valid calls (commands with arbitrary bytes and lengths, the
three hooks, save and load, on any EEPROM) run after `diag_init` finishes in a state with
`scan_div` in 1..255; run instead on the zero-initialised state, without `diag_init`, it
finishes in a state where `enabled == true` implies `scan_div >= 1`.  In both states a
further `diag_on_scan_complete` finishes: its modulo does not divide by zero. -/
theorem C20_scan_div_range (base : Nat) (w0 : World) (calls : List DiagCall)
    (hvalid : ∀ c ∈ calls, call_valid c = true) :
    (∃ w1 w, diag_init w0 = some w1 ∧ run_calls base calls w1 = some w
        ∧ 1 ≤ w.diag_state.scan_div ∧ w.diag_state.scan_div ≤ 255
        ∧ ∀ bm ts id, 12 ≤ bm.length → ∃ w', diag_on_scan_complete bm ts id w = some w')
    ∧ (∃ w, run_calls base calls { w0 with diag_state := diag_state_zero } = some w
        ∧ (w.diag_state.enabled = true → 1 ≤ w.diag_state.scan_div)
        ∧ ∀ bm ts id, 12 ≤ bm.length → ∃ w', diag_on_scan_complete bm ts id w = some w') := by
  have hscan : ∀ w : World, (w.diag_state.enabled = true → 1 ≤ w.diag_state.scan_div) →
      ∀ bm ts id, 12 ≤ bm.length → ∃ w', diag_on_scan_complete bm ts id w = some w' := by
    intro w hinv bm ts id hbm
    obtain ⟨w', h, -⟩ := run_call_scan_div base (DiagCall.on_scan_complete bm ts id) w
      (by simp [call_valid, hbm]) hinv
    exact ⟨w', h⟩
  constructor
  · obtain ⟨w, hrun, hinv, hrange⟩ := run_calls_scan_div base calls
      (timer_us_init { w0 with diag_state := diag_state_init }) hvalid (fun _ => Nat.le_refl 1)
    have hr := hrange ⟨Nat.le_refl 1, by show 1 ≤ 255; omega⟩
    exact ⟨_, w, diag_init_eq w0, hrun, hr.1, hr.2, hscan w hinv⟩
  · obtain ⟨w, hrun, hinv, -⟩ := run_calls_scan_div base calls
      { w0 with diag_state := diag_state_zero } hvalid (fun h => by cases h)
    exact ⟨w, hrun, hinv, hscan w hinv⟩

/-- The sample run, from the blank sample world. -/
theorem C20_scan_div_range_witness :
    (∀ c ∈ sample_calls, call_valid c = true)
    ∧ ((∃ w1 w, diag_init world_blank = some w1 ∧ run_calls 32 sample_calls w1 = some w
        ∧ 1 ≤ w.diag_state.scan_div ∧ w.diag_state.scan_div ≤ 255
        ∧ ∀ bm ts id, 12 ≤ bm.length → ∃ w', diag_on_scan_complete bm ts id w = some w')
      ∧ (∃ w, run_calls 32 sample_calls { world_blank with diag_state := diag_state_zero }
            = some w
        ∧ (w.diag_state.enabled = true → 1 ≤ w.diag_state.scan_div)
        ∧ ∀ bm ts id, 12 ≤ bm.length →
            ∃ w', diag_on_scan_complete bm ts id w = some w')) :=
  ⟨by decide, C20_scan_div_range 32 world_blank sample_calls (by decide)⟩

/-! ## The bulk color packet -/

/-- A read inside the buffer gives a byte. -/
theorem ptr_read_some (data : List Nat) (j : Nat) (h : j < data.length) :
    ∃ b, ptr_read data j = some b :=
  ⟨data.get ⟨j, h⟩, by simp [ptr_read, List.get?_eq_get h]⟩

/-- A read past the end of the buffer is a fault. -/
theorem ptr_read_none (data : List Nat) (j : Nat) (h : data.length ≤ j) :
    ptr_read data j = none := by
  simp [ptr_read, h]

/-- A loop whose body faults at an index it reaches faults. -/
theorem for_loop_none {σ : Type} (body : Nat → σ → Option σ) (i0 : Nat)
    (hfault : ∀ s, body i0 s = none) :
    ∀ k i s, i ≤ i0 → i0 < i + k → for_loop body k i s = none := by
  intro k
  induction k with
  | zero =>
    intro i s h1 h2
    omega
  | succ k ih =>
    intro i s h1 h2
    by_cases hi : i = i0
    · subst hi
      simp [for_loop, hfault]
    · cases hb : body i s with
      | none => simp [for_loop, hb]
      | some s1 =>
        simp only [for_loop, hb, Option.some_bind]
        exact ih (i + 1) s1 (by omega) (by omega)

/-- One iteration of the bulk loop finishes when its four bytes lie inside the buffer
and `ledmap` has a row for every LED. -/
theorem bulk_set_body_ok (led : Nat) (data : List Nat) (i : Nat) (m : Fin 85 → Fin 3 → Nat)
    (hled : led ≤ 85) (hi : i < 10) (hlen : 2 + 4 * i + 4 ≤ data.length) :
    ∃ m1, bulk_set_body led data i m = some m1 := by
  have hoff : (2 + i * 4) % 256 = 2 + i * 4 := Nat.mod_eq_of_lt (by omega)
  obtain ⟨b0, h0⟩ := ptr_read_some data (2 + i * 4) (by omega)
  obtain ⟨b1, h1⟩ := ptr_read_some data (2 + i * 4 + 1) (by omega)
  obtain ⟨b2, h2⟩ := ptr_read_some data (2 + i * 4 + 2) (by omega)
  obtain ⟨b3, h3⟩ := ptr_read_some data (2 + i * 4 + 3) (by omega)
  by_cases hk : b0 < led
  · have hrow : b0 < 85 := by omega
    simp [bulk_set_body, hoff, h0, h1, h2, h3, hk, ledmap_write, hrow]
  · simp [bulk_set_body, hoff, h0, h1, h2, h3, hk]

/-- On a 32-byte packet the eighth iteration of the bulk loop faults: it reads
`data[32]`. -/
theorem bulk_set_body_fault (led : Nat) (data : List Nat) (m : Fin 85 → Fin 3 → Nat)
    (hlen : data.length = 32) :
    bulk_set_body led data 7 m = none := by
  obtain ⟨b0, h0⟩ := ptr_read_some data 30 (by omega)
  obtain ⟨b1, h1⟩ := ptr_read_some data 31 (by omega)
  have h2 : ptr_read data 32 = none := ptr_read_none data 32 (by omega)
  simp [bulk_set_body, h0, h1, h2]

/-- Case `0x21` on a 32-byte packet whose count byte is 8 or more faults. -/
theorem raw_hid_receive_bulk_fault (led len c : Nat) (data : List Nat) (k : KeymapWorld)
    (hlen : data.length = 32) (h0 : ptr_read data 0 = some 0x21)
    (h1 : ptr_read data 1 = some c) (hc : 8 ≤ c) :
    raw_hid_receive led data len k = none := by
  have hloop : for_loop (bulk_set_body led data) (if c > 10 then 10 else c) 0 k.ledmap = none :=
    for_loop_none (bulk_set_body led data) 7 (fun s => bulk_set_body_fault led data s hlen)
      _ 0 k.ledmap (by omega) (by split <;> omega)
  simp [raw_hid_receive, h0, h1, hloop]

/-- Case `0x21` on a 32-byte packet whose count byte is at most 7 finishes, with
per-key colors switched on and nothing else but `ledmap` changed. -/
theorem raw_hid_receive_bulk_ok (led len c : Nat) (data : List Nat) (k : KeymapWorld)
    (hled : led ≤ 85) (hlen : data.length = 32) (h0 : ptr_read data 0 = some 0x21)
    (h1 : ptr_read data 1 = some c) (hc : c ≤ 7) :
    ∃ m, raw_hid_receive led data len k =
      some { k with ledmap := m, use_per_key_colors := true } := by
  have hcount : (if c > 10 then 10 else c) = c := by
    rw [if_neg (by omega)]
  obtain ⟨m, hm, -⟩ := for_loop_inv (bulk_set_body led data) c (fun _ _ => True)
    (fun i s hi _ => by
      obtain ⟨m1, h⟩ := bulk_set_body_ok led data i s hled (by omega) (by omega)
      exact ⟨m1, h, trivial⟩)
    c 0 k.ledmap (by omega) trivial
  exact ⟨m, by simp [raw_hid_receive, h0, h1, hcount, hm]⟩


/-! ## Claim on the raw HID handler -/

/-- C21 fails on the code.  On the 32-byte packet with byte0 = 0x21 and byte1 = 8 the
clamp to 10 lets the loop run its eighth iteration, which reads `data[32]`, past the
packet: the call faults.  The same bytes followed by two more are handled, so it is the
packet read that faults, and with byte1 = 7 the 32-byte packet is handled. -/
theorem C21_bulk_reads_past_packet :
    (bulk_packet 8).length = 32
      ∧ ptr_read (bulk_packet 8) 0 = some 0x21
      ∧ ptr_read (bulk_packet 8) 1 = some 8
      ∧ (raw_hid_receive 85 (bulk_packet 8) 32 keymap_sample).isSome = false
      ∧ ptr_read (bulk_packet 8) (2 + 7 * 4 + 2) = none
      ∧ (raw_hid_receive 85 (bulk_packet 8 ++ [0, 0]) 32 keymap_sample).isSome = true
      ∧ (raw_hid_receive 85 (bulk_packet 7) 32 keymap_sample).isSome = true := by
  refine ⟨by decide, by decide, by decide, by decide, by decide, by decide, by decide⟩

end Diag
